import Mathlib

/-!
Verification development for the `fature-data-service-v2` repository.

The JavaScript sources are shallowly embedded: JS values become the inductive
`JSVal`, records become association lists, fallible code returns `Except`,
stateful code (the ETL scheduler) becomes an explicit step function on a state
type, and the PostgreSQL tables touched by the upsert paths become lists of
rows.  JS `Date` / moment.js instants are modelled as integer milliseconds
since the Unix epoch, with the process timezone taken to be UTC.  All integer
divisions below are by positive constants, where Lean's `Int` division агrees
with JS `Math.floor` division.
-/

set_option maxHeartbeats 2000000

namespace FatureData

/-- Milliseconds in one day. -/
def dayMs : Int := 86400000

/-! ## Proleptic Gregorian calendar (UTC), as used by moment.js `startOf`/`endOf`

`daysFromCivil` maps a civil date to its day number relative to 1970-01-01;
`civilFromDays` is its inverse (era/century/quad cascade equivalent to Howard
Hinnant's algorithm). -/

/-- Gregorian leap-year predicate. -/
def isLeap (y : Int) : Bool :=
  y % 4 = 0 && (y % 100 ≠ 0 || y % 400 = 0)

/-- Days in the months before month `m` (1-based) of a year with leapness `leap`. -/
def cumDaysBefore (m : Int) (leap : Bool) : Int :=
  let feb : Int := if leap then 29 else 28
  if m ≤ 1 then 0
  else if m = 2 then 31
  else if m = 3 then 31 + feb
  else if m = 4 then 62 + feb
  else if m = 5 then 92 + feb
  else if m = 6 then 123 + feb
  else if m = 7 then 153 + feb
  else if m = 8 then 184 + feb
  else if m = 9 then 215 + feb
  else if m = 10 then 245 + feb
  else if m = 11 then 276 + feb
  else if m = 12 then 306 + feb
  else 337 + feb

/-- Number of leap years in `[0, y)` (signed count for negative `y`). -/
def leapsBefore (y : Int) : Int :=
  (y - 1) / 4 - (y - 1) / 100 + (y - 1) / 400 + 1

/-- Day number of the civil date `y-m-d` relative to 1970-01-01. -/
def daysFromCivil (y m d : Int) : Int :=
  365 * y + leapsBefore y + cumDaysBefore m (isLeap y) + d - 719529

/-- Days in month `m` of a year with leapness `leap`. -/
def daysInMonth (m : Int) (leap : Bool) : Int :=
  cumDaysBefore (m + 1) leap - cumDaysBefore m leap

/-- Civil date `(y, m, d)` of the day number `z` (days since 1970-01-01). -/
def civilFromDays (z : Int) : Int × Int × Int :=
  let z' := z + 719468
  let era := z' / 146097
  let doe := z' - era * 146097
  let c := min (doe / 36524) 3
  let doc := doe - 36524 * c
  let q := doc / 1461
  let doq := doc - 1461 * q
  let yq := min (doq / 365) 3
  let doy := doq - 365 * yq
  let y0 := era * 400 + (100 * c + 4 * q + yq)
  let mp := (5 * doy + 2) / 153
  let d := doy - (153 * mp + 2) / 5 + 1
  let m := if mp < 10 then mp + 3 else mp - 9
  (if m ≤ 2 then y0 + 1 else y0, m, d)

theorem isLeap_iff (y : Int) :
    isLeap y = true ↔ (y % 4 = 0 ∧ (y % 100 ≠ 0 ∨ y % 400 = 0)) := by
  simp [isLeap]

theorem leapsBefore_succ (y : Int) :
    leapsBefore (y + 1) = leapsBefore y + (if isLeap y then 1 else 0) := by
  have h := isLeap_iff y
  cases hL : isLeap y <;> rw [hL] at h <;>
    simp only [false_iff, true_iff, not_and, not_or, not_not, if_true, if_false,
      Bool.false_eq_true, leapsBefore] at h ⊢ <;> omega

theorem marchYearStart (era yoe : Int) (h0 : 0 ≤ yoe) (h1 : yoe ≤ 399) :
    daysFromCivil (400 * era + yoe) 3 1 =
      146097 * era + (365 * yoe + yoe / 4 - yoe / 100) - 719468 := by
  have hleap := isLeap_iff (400 * era + yoe)
  simp only [daysFromCivil, leapsBefore, cumDaysBefore] at *
  cases hL : isLeap (400 * era + yoe) <;> rw [hL] at hleap <;>
    simp only [false_iff, true_iff, not_and, not_or, not_not, Bool.false_eq_true,
      if_true, if_false] at hleap ⊢ <;>
    norm_num <;> omega

theorem monthFromMarch (y mp d : Int) (h0 : 0 ≤ mp) (h1 : mp ≤ 9) :
    daysFromCivil y (mp + 3) d =
      daysFromCivil y 3 1 + (153 * mp + 2) / 5 + (d - 1) := by
  interval_cases mp <;>
    simp only [daysFromCivil, cumDaysBefore] <;>
    cases isLeap y <;> norm_num <;> omega

theorem janFebFromMarch (y mp d : Int) (h0 : 10 ≤ mp) (h1 : mp ≤ 11) :
    daysFromCivil (y + 1) (mp - 9) d =
      daysFromCivil y 3 1 + (153 * mp + 2) / 5 + (d - 1) := by
  have hs := leapsBefore_succ y
  interval_cases mp <;>
    simp only [daysFromCivil, cumDaysBefore] <;>
    cases hL : isLeap y <;> rw [hL] at hs <;>
      norm_num at hs ⊢ <;> omega

theorem cfd_core (z' era doe c doc q doq yq doy yoe mp d0 m y0 y : Int)
    (hera : era = z' / 146097) (hdoe : doe = z' - era * 146097)
    (hc : c = min (doe / 36524) 3) (hdoc : doc = doe - 36524 * c)
    (hq : q = doc / 1461) (hdoq : doq = doc - 1461 * q)
    (hyq : yq = min (doq / 365) 3) (hdoy : doy = doq - 365 * yq)
    (hyoe : yoe = 100 * c + 4 * q + yq) (hy0 : y0 = era * 400 + yoe)
    (hmp : mp = (5 * doy + 2) / 153) (hd : d0 = doy - (153 * mp + 2) / 5 + 1)
    (hm : m = if mp < 10 then mp + 3 else mp - 9)
    (hy : y = if m ≤ 2 then y0 + 1 else y0) :
    daysFromCivil y m d0 = z' - 719468 ∧ 1 ≤ m ∧ m ≤ 12 ∧
    1 ≤ d0 ∧ d0 ≤ daysInMonth m (isLeap y) := by
  have hdoeb : 0 ≤ doe ∧ doe ≤ 146096 := by omega
  have hcb : 0 ≤ c ∧ c ≤ 3 := by omega
  have hdocb : 0 ≤ doc ∧ doc ≤ 36524 := by omega
  have hqb : 0 ≤ q ∧ q ≤ 24 := by omega
  have hdoqb : 0 ≤ doq ∧ doq ≤ 1460 := by omega
  have hyqb : 0 ≤ yq ∧ yq ≤ 3 := by omega
  have hdoyb : 0 ≤ doy ∧ doy ≤ 365 := by omega
  have hyoeb : 0 ≤ yoe ∧ yoe ≤ 399 := by omega
  have hS4 : yoe / 4 = 25 * c + q := by omega
  have hS100 : yoe / 100 = c := by omega
  have hz : z' - 719468 =
      146097 * era + (365 * yoe + yoe / 4 - yoe / 100) - 719468 + doy := by
    rw [hS4, hS100]; omega
  have hmarch := marchYearStart era yoe hyoeb.1 hyoeb.2
  have hmarch' : daysFromCivil y0 3 1 =
      146097 * era + (365 * yoe + yoe / 4 - yoe / 100) - 719468 := by
    rw [hy0, show era * 400 + yoe = 400 * era + yoe by ring, hmarch]
  have hmp0 : 0 ≤ mp := by omega
  have hmp11 : mp ≤ 11 := by omega
  have hd0 : 1 ≤ d0 := by omega
  rcases lt_or_ge mp 10 with h10 | h10
  · have hmv : m = mp + 3 := by rw [hm, if_pos h10]
    have hyv : y = y0 := by rw [hy, hmv, if_neg (by omega)]
    have hB := monthFromMarch y0 mp d0 hmp0 (by omega)
    refine ⟨?_, by omega, by omega, hd0, ?_⟩
    · rw [hyv, hmv, hB, hmarch']; omega
    · rw [hyv, hmv]
      interval_cases mp <;>
        simp only [daysInMonth, cumDaysBefore] <;>
        cases isLeap y0 <;> norm_num <;> omega
  · have hmv : m = mp - 9 := by rw [hm, if_neg (by omega)]
    have hyv : y = y0 + 1 := by rw [hy, hmv, if_pos (by omega)]
    have hC := janFebFromMarch y0 mp d0 h10 hmp11
    refine ⟨?_, by omega, by omega, hd0, ?_⟩
    · rw [hyv, hmv, hC, hmarch']; omega
    · rw [hyv, hmv]
      have hiff := isLeap_iff (y0 + 1)
      interval_cases mp <;>
        simp only [daysInMonth, cumDaysBefore] <;>
        cases hL : isLeap (y0 + 1) <;> rw [hL] at hiff <;>
          simp only [false_iff, true_iff, not_and, not_or, not_not,
            Bool.false_eq_true] at hiff <;>
          norm_num <;> omega

theorem civilFromDays_eq (z : Int) :
    ∃ era doe c doc q doq yq doy yoe mp d0 m y0 : Int,
      era = (z + 719468) / 146097 ∧ doe = (z + 719468) - era * 146097 ∧
      c = min (doe / 36524) 3 ∧ doc = doe - 36524 * c ∧
      q = doc / 1461 ∧ doq = doc - 1461 * q ∧
      yq = min (doq / 365) 3 ∧ doy = doq - 365 * yq ∧
      yoe = 100 * c + 4 * q + yq ∧ y0 = era * 400 + yoe ∧
      mp = (5 * doy + 2) / 153 ∧ d0 = doy - (153 * mp + 2) / 5 + 1 ∧
      m = (if mp < 10 then mp + 3 else mp - 9) ∧
      civilFromDays z = (if m ≤ 2 then y0 + 1 else y0, m, d0) := by
  exact ⟨_, _, _, _, _, _, _, _, _, _, _, _, _, rfl, rfl, rfl, rfl, rfl, rfl, rfl,
    rfl, rfl, rfl, rfl, rfl, rfl, rfl⟩

theorem civilFromDays_spec (z y m d : Int) (h : civilFromDays z = (y, m, d)) :
    daysFromCivil y m d = z ∧ 1 ≤ m ∧ m ≤ 12 ∧
    1 ≤ d ∧ d ≤ daysInMonth m (isLeap y) := by
  obtain ⟨era, doe, c, doc, q, doq, yq, doy, yoe, mp, d0, m', y0,
    h1, h2, h3, h4, h5, h6, h7, h8, h9, h10, h11, h12, h13, hcfd⟩ :=
    civilFromDays_eq z
  rw [h] at hcfd
  injection hcfd with hy' hrest
  injection hrest with hm' hd'
  have hy2 : y = if m ≤ 2 then y0 + 1 else y0 := by rw [hm']; exact hy'
  have := cfd_core (z + 719468) era doe c doc q doq yq doy yoe mp d m y0 y
    h1 (by omega) h3 h4 h5 h6 h7 h8 h9 h10 h11 (hd'.trans h12) (hm'.trans h13) hy2
  have h719 : z + 719468 - 719468 = z := by ring
  rw [h719] at this
  exact this

theorem dFC_day_shift (y m d : Int) :
    daysFromCivil y m d = daysFromCivil y m 1 + (d - 1) := by
  simp only [daysFromCivil]; ring

theorem dFC_month_succ (y m : Int) :
    daysFromCivil y (m + 1) 1 = daysFromCivil y m 1 + daysInMonth m (isLeap y) := by
  simp only [daysFromCivil, daysInMonth]; ring

theorem dFC_year_roll (y : Int) : daysFromCivil (y + 1) 1 1 = daysFromCivil y 13 1 := by
  have hs := leapsBefore_succ y
  cases hL : isLeap y <;> rw [hL] at hs <;> norm_num at hs <;>
    simp only [daysFromCivil, cumDaysBefore, hL] <;> norm_num <;> omega

theorem cum_nonneg (m : Int) (leap : Bool) (h1 : 1 ≤ m) (h2 : m ≤ 13) :
    0 ≤ cumDaysBefore m leap := by
  interval_cases m <;> cases leap <;> norm_num [cumDaysBefore]

theorem cum_le_year (m : Int) (leap : Bool) (h1 : 1 ≤ m) (h2 : m ≤ 13) :
    cumDaysBefore m leap ≤ cumDaysBefore 13 leap := by
  interval_cases m <;> cases leap <;> norm_num [cumDaysBefore]

example : daysFromCivil 1970 1 1 = 0 := by decide
example : daysFromCivil 2025 3 10 = 20157 := by decide
example : civilFromDays 20157 = (2025, 3, 10) := by decide
example : civilFromDays 0 = (1970, 1, 1) := by decide
example : civilFromDays (-1) = (1969, 12, 31) := by decide

/-! ## moment.js `startOf`/`endOf` in UTC (embedding of the calls made by
`getPeriodRange` in dataService.js).  A moment is an integer count of
milliseconds since the Unix epoch. -/

/-- moment `startOf('day')`. -/
def startOfDay (t : Int) : Int := (t / dayMs) * dayMs

/-- moment `endOf('day')` (23:59:59.999). -/
def endOfDay (t : Int) : Int := startOfDay t + (dayMs - 1)

/-- Day of week, 0 = Sunday (the default `en` locale week start of moment). -/
def dayOfWeek (t : Int) : Int := (t / dayMs + 4) % 7

/-- moment `startOf('week')` under the default locale: the preceding Sunday. -/
def startOfWeek (t : Int) : Int := startOfDay t - dayOfWeek t * dayMs

/-- moment `endOf('week')`: the following Saturday 23:59:59.999. -/
def endOfWeek (t : Int) : Int := startOfWeek t + 7 * dayMs - 1

/-- Calendar year containing the instant `t`. -/
def yearOf (t : Int) : Int := (civilFromDays (t / dayMs)).1

/-- Calendar month containing the instant `t`. -/
def monthOf (t : Int) : Int := (civilFromDays (t / dayMs)).2.1

/-- moment `startOf('month')`. -/
def startOfMonth (t : Int) : Int := daysFromCivil (yearOf t) (monthOf t) 1 * dayMs

/-- First instant of the month after the one containing `t`. -/
def startOfNextMonth (t : Int) : Int :=
  (if monthOf t = 12 then daysFromCivil (yearOf t + 1) 1 1
   else daysFromCivil (yearOf t) (monthOf t + 1) 1) * dayMs

/-- moment `endOf('month')`: last day of the month, 23:59:59.999. -/
def endOfMonth (t : Int) : Int := startOfNextMonth t - 1

/-- moment `startOf('year')`. -/
def startOfYear (t : Int) : Int := daysFromCivil (yearOf t) 1 1 * dayMs

/-- moment `endOf('year')`: Dec 31, 23:59:59.999. -/
def endOfYear (t : Int) : Int := daysFromCivil (yearOf t + 1) 1 1 * dayMs - 1

theorem startOfDay_le (t : Int) :
    startOfDay t ≤ t ∧ t < startOfDay t + dayMs ∧ startOfDay t % dayMs = 0 := by
  simp only [startOfDay, dayMs]; omega

theorem startOfWeek_le (t : Int) :
    startOfWeek t ≤ t ∧ t < startOfWeek t + 7 * dayMs ∧
    startOfWeek t % dayMs = 0 ∧ dayOfWeek (startOfWeek t) = 0 := by
  simp only [startOfWeek, startOfDay, dayOfWeek, dayMs]; omega

theorem month_window_days (z y m d : Int) (h : civilFromDays z = (y, m, d)) :
    daysFromCivil y m 1 ≤ z ∧
    z < daysFromCivil y m 1 + daysInMonth m (isLeap y) ∧
    1 ≤ m ∧ m ≤ 12 := by
  obtain ⟨hz, hm1, hm12, hd1, hdim⟩ := civilFromDays_spec z y m d h
  rw [dFC_day_shift y m d] at hz
  omega

theorem year_window_days (z y m d : Int) (h : civilFromDays z = (y, m, d)) :
    daysFromCivil y 1 1 ≤ z ∧ z < daysFromCivil (y + 1) 1 1 := by
  obtain ⟨hlo, hhi, hm1, hm12⟩ := month_window_days z y m d h
  have hcn := cum_nonneg m (isLeap y) hm1 (by omega)
  have hcy := cum_le_year (m + 1) (isLeap y) (by omega) (by omega)
  have h1 : daysFromCivil y 1 1 ≤ daysFromCivil y m 1 := by
    have hc1 : cumDaysBefore 1 (isLeap y) = 0 := by
      cases isLeap y <;> norm_num [cumDaysBefore]
    simp only [daysFromCivil, hc1]
    omega
  have h2 : daysFromCivil y m 1 + daysInMonth m (isLeap y) ≤
      daysFromCivil (y + 1) 1 1 := by
    rw [dFC_year_roll]
    simp only [daysFromCivil, daysInMonth]
    omega
  omega

theorem startOfMonth_window (t : Int) :
    startOfMonth t ≤ t ∧ t < startOfNextMonth t ∧
    startOfNextMonth t =
      startOfMonth t + daysInMonth (monthOf t) (isLeap (yearOf t)) * dayMs ∧
    startOfMonth t % dayMs = 0 ∧ startOfNextMonth t % dayMs = 0 ∧
    1 ≤ monthOf t ∧ monthOf t ≤ 12 := by
  rcases hc : civilFromDays (t / dayMs) with ⟨y, m, d⟩
  have hy : yearOf t = y := by simp [yearOf, hc]
  have hm : monthOf t = m := by simp [monthOf, hc]
  obtain ⟨hlo, hhi, hm1, hm12⟩ := month_window_days (t / dayMs) y m d hc
  have hnext : startOfNextMonth t =
      (daysFromCivil y m 1 + daysInMonth m (isLeap y)) * dayMs := by
    simp only [startOfNextMonth, hy, hm]
    rcases eq_or_ne m 12 with h12 | h12
    · rw [if_pos h12, dFC_year_roll, h12]
      rw [show (13 : Int) = 12 + 1 by norm_num, dFC_month_succ]
    · rw [if_neg h12, dFC_month_succ]
  refine ⟨?_, ?_, ?_, ?_, ?_, ?_, ?_⟩ <;>
    simp only [startOfMonth, hy, hm, hnext, dayMs] at * <;> omega

theorem startOfYear_window (t : Int) :
    startOfYear t ≤ t ∧ t ≤ endOfYear t ∧
    startOfYear t % dayMs = 0 ∧ (endOfYear t + 1) % dayMs = 0 := by
  rcases hc : civilFromDays (t / dayMs) with ⟨y, m, d⟩
  have hy : yearOf t = y := by simp [yearOf, hc]
  obtain ⟨hlo, hhi⟩ := year_window_days (t / dayMs) y m d hc
  simp only [startOfYear, endOfYear, hy, dayMs] at *
  omega

/-- Embedding of `getPeriodRange(date, periodType)` (dataService.js 331-358).
The JS `switch` returns moment `startOf`/`endOf` pairs for the four period
types and throws `Tipo de período inválido` otherwise (modelled as `none`). -/
def getPeriodRange (date : Int) (periodType : String) : Option (Int × Int) :=
  if periodType = "DAILY" then some (startOfDay date, endOfDay date)
  else if periodType = "WEEKLY" then some (startOfWeek date, endOfWeek date)
  else if periodType = "MONTHLY" then some (startOfMonth date, endOfMonth date)
  else if periodType = "YEARLY" then some (startOfYear date, endOfYear date)
  else none

/-- Monday-start (ISO-8601) week truncation, written from the claim wording
"ISO week"; the code instead uses moment's default Sunday-start locale week. -/
def isoWeekStart (t : Int) : Int :=
  startOfDay t - ((t / dayMs + 3) % 7) * dayMs

theorem daysInMonth_pos (m : Int) (leap : Bool) (h1 : 1 ≤ m) (h2 : m ≤ 12) :
    28 ≤ daysInMonth m leap := by
  interval_cases m <;> cases leap <;> norm_num [daysInMonth, cumDaysBefore]

theorem getPeriodRange_daily (t : Int) :
    getPeriodRange t "DAILY" = some (startOfDay t, endOfDay t) := rfl

theorem getPeriodRange_weekly (t : Int) :
    getPeriodRange t "WEEKLY" = some (startOfWeek t, endOfWeek t) := rfl

theorem getPeriodRange_monthly (t : Int) :
    getPeriodRange t "MONTHLY" = some (startOfMonth t, endOfMonth t) := rfl

theorem getPeriodRange_yearly (t : Int) :
    getPeriodRange t "YEARLY" = some (startOfYear t, endOfYear t) := rfl

theorem getPeriodRange_spec (t s e : Int) :
    (∀ pt, getPeriodRange t pt = some (s, e) → s ≤ t ∧ t ≤ e ∧ s < e) ∧
    (getPeriodRange t "DAILY" = some (s, e) →
      s % dayMs = 0 ∧ e = s + dayMs - 1) ∧
    (getPeriodRange t "WEEKLY" = some (s, e) →
      s % dayMs = 0 ∧ dayOfWeek s = 0 ∧ e = s + 7 * dayMs - 1) ∧
    (getPeriodRange t "MONTHLY" = some (s, e) →
      s = daysFromCivil (yearOf t) (monthOf t) 1 * dayMs ∧
      e + 1 = s + daysInMonth (monthOf t) (isLeap (yearOf t)) * dayMs) ∧
    (getPeriodRange t "YEARLY" = some (s, e) →
      s = daysFromCivil (yearOf t) 1 1 * dayMs ∧
      e + 1 = daysFromCivil (yearOf t + 1) 1 1 * dayMs) := by
  have hd := startOfDay_le t
  have hw := startOfWeek_le t
  have hmw := startOfMonth_window t
  have hyw := startOfYear_window t
  have hdp := daysInMonth_pos (monthOf t) (isLeap (yearOf t)) hmw.2.2.2.2.2.1
    hmw.2.2.2.2.2.2
  refine ⟨?_, ?_, ?_, ?_, ?_⟩
  · intro pt hpt
    simp only [getPeriodRange] at hpt
    split_ifs at hpt <;> simp only [Option.some.injEq, Prod.mk.injEq] at hpt <;>
      obtain ⟨hs, he⟩ := hpt <;> subst hs <;> subst he
    · simp only [endOfDay, dayMs] at *; omega
    · simp only [endOfWeek, dayMs] at *; omega
    · simp only [endOfMonth, startOfMonth, dayMs] at *; omega
    · simp only [endOfYear, startOfYear, dayMs] at *; omega
  · intro hpt
    rw [getPeriodRange_daily, Option.some.injEq, Prod.mk.injEq] at hpt
    obtain ⟨hs, he⟩ := hpt; subst hs; subst he
    simp only [endOfDay, startOfDay, dayMs]; omega
  · intro hpt
    rw [getPeriodRange_weekly, Option.some.injEq, Prod.mk.injEq] at hpt
    obtain ⟨hs, he⟩ := hpt; subst hs; subst he
    refine ⟨hw.2.2.1, hw.2.2.2, ?_⟩
    simp only [endOfWeek]
  · intro hpt
    rw [getPeriodRange_monthly, Option.some.injEq, Prod.mk.injEq] at hpt
    obtain ⟨hs, he⟩ := hpt; subst hs; subst he
    refine ⟨rfl, ?_⟩
    simp only [endOfMonth, startOfMonth] at *
    omega
  · intro hpt
    rw [getPeriodRange_yearly, Option.some.injEq, Prod.mk.injEq] at hpt
    obtain ⟨hs, he⟩ := hpt; subst hs; subst he
    refine ⟨rfl, ?_⟩
    simp only [endOfYear, startOfYear]
    omega

example :
    getPeriodRange 1741616520000 "DAILY" =
      some (1741564800000, 1741651199999) := by decide

example :
    getPeriodRange 1741616520000 "MONTHLY" =
      some (1740787200000, 1743465599999) := by decide

example :
    getPeriodRange 1741616520000 "WEEKLY" =
      some (1741478400000, 1742083199999) := by decide

example : isoWeekStart 1741616520000 = 1741564800000 := by decide

example : getPeriodRange 1741616520000 "QUARTERLY" = none := by decide

/-! ## JS value model

JS runtime values that flow through the ETL transformer: strings, finite
numbers, `NaN`, booleans, `null`, `undefined`, plus the two structured values
the pipeline itself attaches (`_unique_fields` string arrays and the
`_etl_metadata` object). -/

inductive JSVal where
  | str (s : String)
  | num (q : ℚ)
  | nan
  | bool (b : Bool)
  | null
  | undefVal
  | arr (elems : List String)
  | obj (fields : List (String × JSVal))

/-- A JS object, as an association list in insertion order (keys unique). -/
abbrev JsRecord := List (String × JSVal)

/-- JS truthiness. -/
def jsTruthy : JSVal → Bool
  | .str s => !(s == "")
  | .num q => !(q == 0)
  | .nan => false
  | .bool b => b
  | .null => false
  | .undefVal => false
  | .arr _ => true
  | .obj _ => true

/-- `record[k]`, `none` when the property is absent. -/
def getField : JsRecord → String → Option JSVal
  | [], _ => none
  | (k', v) :: rest, k => if k' == k then some v else getField rest k

/-- `record[k] = v`: overwrite in place, else append (JS insertion order). -/
def setField : JsRecord → String → JSVal → JsRecord
  | [], k, v => [(k, v)]
  | (k', v') :: rest, k, v =>
    if k' == k then (k', v) :: rest else (k', v') :: setField rest k v

/-! ### Character-level string helpers (JS semantics, kernel-computable) -/

/-- JS `\s` on the ASCII range. -/
def isJsSpace (c : Char) : Bool :=
  c == ' ' || c == '\t' || c == '\n' || c == '\r' || c == '\x0b' || c == '\x0c'

/-- JS `String.prototype.trim`. -/
def trimChars (cs : List Char) : List Char :=
  ((cs.dropWhile isJsSpace).reverse.dropWhile isJsSpace).reverse

def jsTrim (s : String) : String := String.mk (trimChars s.data)

/-- ASCII lower-casing, as applied by `toLowerCase` to the values in play. -/
def lcChar (c : Char) : Char :=
  if 'A' ≤ c ∧ c ≤ 'Z' then Char.ofNat (c.toNat + 32) else c

def lowerChars (cs : List Char) : List Char := cs.map lcChar

def jsToLower (s : String) : String := String.mk (lowerChars s.data)

def startsList : List Char → List Char → Bool
  | _, [] => true
  | [], _ :: _ => false
  | a :: as, b :: bs => a == b && startsList as bs

def containsList : List Char → List Char → Bool
  | [], needle => needle.isEmpty
  | c :: rest, needle => startsList (c :: rest) needle || containsList rest needle

/-- JS `String.prototype.includes`. -/
def strIncludes (s sub : String) : Bool := containsList s.data sub.data

/-- JS `String.prototype.endsWith` (used only to state the spec's wording). -/
def strEndsWith (s sub : String) : Bool :=
  startsList s.data.reverse sub.data.reverse

/-- JS `String.prototype.startsWith` (used only to state the spec's wording). -/
def strStartsWith (s sub : String) : Bool := startsList s.data sub.data

/-- Digit run to its numeric value. -/
def digitsToNat (ds : List Char) : Nat := ds.foldl (fun a c => a * 10 + (c.toNat - 48)) 0

/-- JS `parseFloat` on a string: optional leading whitespace and sign, then a
decimal literal prefix; `NaN` (`none`) when no digits are found.  (The
exponent form is not produced by this repository's data and is not modelled.) -/
def jsParseFloatStr (s : String) : Option ℚ :=
  let cs := s.data.dropWhile isJsSpace
  let sign : ℚ × List Char :=
    match cs with
    | '-' :: r => (-1, r)
    | '+' :: r => (1, r)
    | _ => (1, cs)
  let intDs := sign.2.takeWhile Char.isDigit
  let rest := sign.2.drop intDs.length
  let fracDs :=
    match rest with
    | '.' :: r => r.takeWhile Char.isDigit
    | _ => []
  if intDs.isEmpty && fracDs.isEmpty then none
  else some (sign.1 * ((digitsToNat intDs : ℚ) +
    (digitsToNat fracDs : ℚ) / ((10 ^ fracDs.length : ℕ) : ℚ)))

/-- JS `parseFloat(v)` (the argument is coerced to a string first; `"true"`,
`"false"`, `"null"`, `"undefined"`, `"NaN"` all parse to `NaN`). -/
def jsParseFloat : JSVal → Option ℚ
  | .str s => jsParseFloatStr s
  | .num q => some q
  | _ => none

/-! ### moment.js parsing and formatting

Models moment's handling of the ISO-8601 timestamps this repository's data
carries (PostgreSQL timestamps and JS `toISOString` output); strings outside
that shape are invalid moments. -/

def parseMsPart : List Char → Option Int
  | [] => some 0
  | ['Z'] => some 0
  | '.' :: a :: b :: c :: rest =>
    if ([a, b, c].all Char.isDigit && (rest == [] || rest == ['Z'])) then
      some (digitsToNat [a, b, c])
    else none
  | _ => none

def parseSecPart : List Char → Option Int
  | [] => some 0
  | ['Z'] => some 0
  | ':' :: s1 :: s2 :: rest =>
    if [s1, s2].all Char.isDigit then
      let ss : Int := digitsToNat [s1, s2]
      if ss ≤ 59 then (parseMsPart rest).map (fun ms => ss * 1000 + ms) else none
    else none
  | _ => none

def parseTimePart : List Char → Option Int
  | [] => some 0
  | 'T' :: h1 :: h2 :: ':' :: mi1 :: mi2 :: rest =>
    if [h1, h2, mi1, mi2].all Char.isDigit then
      let hh : Int := digitsToNat [h1, h2]
      let mm : Int := digitsToNat [mi1, mi2]
      if hh ≤ 23 && mm ≤ 59 then
        (parseSecPart rest).map (fun ms => hh * 3600000 + mm * 60000 + ms)
      else none
    else none
  | _ => some 0

def momentParseStr (s : String) : Option Int :=
  match s.data with
  | y1 :: y2 :: y3 :: y4 :: '-' :: m1 :: m2 :: '-' :: d1 :: d2 :: rest =>
    if [y1, y2, y3, y4, m1, m2, d1, d2].all Char.isDigit then
      let y : Int := digitsToNat [y1, y2, y3, y4]
      let m : Int := digitsToNat [m1, m2]
      let d : Int := digitsToNat [d1, d2]
      if 1 ≤ m ∧ m ≤ 12 ∧ 1 ≤ d ∧ d ≤ daysInMonth m (isLeap y) then
        (parseTimePart rest).map (fun ms => daysFromCivil y m d * dayMs + ms)
      else none
    else none
  | _ => none

/-- `moment(v)`: `some` epoch-milliseconds when valid, `none` when invalid. -/
def momentParse : JSVal → Option Int
  | .str s => momentParseStr s
  | .num q => some ⌊q⌋
  | _ => none

def natCharsAux : Nat → Nat → List Char
  | 0, _ => []
  | _ + 1, 0 => []
  | fuel + 1, n => natCharsAux fuel (n / 10) ++ [Char.ofNat (48 + n % 10)]

def natChars (n : Nat) : List Char := if n = 0 then ['0'] else natCharsAux 16 n

def padLeft (w : Nat) (cs : List Char) : List Char :=
  List.replicate (w - cs.length) '0' ++ cs

/-- `moment(v).toISOString()` for an epoch-millisecond instant. -/
def msToIso (t : Int) : String :=
  let z := t / dayMs
  let ms := t - z * dayMs
  let ymd := civilFromDays z
  String.mk (padLeft 4 (natChars ymd.1.toNat) ++ '-' ::
    padLeft 2 (natChars ymd.2.1.toNat) ++ '-' ::
    padLeft 2 (natChars ymd.2.2.toNat) ++ 'T' ::
    padLeft 2 (natChars (ms / 3600000).toNat) ++ ':' ::
    padLeft 2 (natChars ((ms % 3600000) / 60000).toNat) ++ ':' ::
    padLeft 2 (natChars ((ms % 60000) / 1000).toNat) ++ '.' ::
    padLeft 3 (natChars (ms % 1000).toNat) ++ ['Z'])

example : momentParseStr "2025-03-10T14:22:00.000Z" = some 1741616520000 := by decide
example : momentParseStr "not-a-date" = none := by decide
example : msToIso 1741616520000 = "2025-03-10T14:22:00.000Z" := by decide
example : ∃ q, jsParseFloatStr "12abc" = some q := ⟨_, rfl⟩
example : jsParseFloatStr "abc" = none := rfl

/-! ## RecordMapper: embedding of DataTransformer (dataTransformer.js) -/

/-- A per-field transform function from a table mapping's `transformations`;
a thrown JS error is `Except.error`. -/
def TransformFn := JSVal → JsRecord → Except String JSVal

/-- Embedding of `mapFields` (dataTransformer.js 116-126): project the source
record through `fieldMapping`; unmapped source columns are dropped. -/
def mapFields (sourceRecord : JsRecord) (fieldMapping : List (String × String)) :
    JsRecord :=
  fieldMapping.foldl
    (fun acc p =>
      match getField sourceRecord p.1 with
      | some v => setField acc p.2 v
      | none => acc)
    []

/-- The name test of the date-coercion block (dataTransformer.js 172):
`field.includes('_at') || field.includes('_date') || field.includes('date_')`. -/
def dateColumn (field : String) : Bool :=
  strIncludes field "_at" || strIncludes field "_date" || strIncludes field "date_"

/-- The name test of the number-coercion block (dataTransformer.js 184):
`field.includes('amount') || field.includes('_id') || field === 'id'`. -/
def numberColumn (field : String) : Bool :=
  strIncludes field "amount" || strIncludes field "_id" || field == "id"

/-- The guard `value !== null && value !== undefined && value !== ''` of the
number-coercion block (dataTransformer.js 185). -/
def notNullUndefEmpty : JSVal → Bool
  | .null => false
  | .undefVal => false
  | .str "" => false
  | _ => true

/-- One field of `applyDefaultTransformations` (dataTransformer.js 157-200):
the four coercion blocks run in order on `transformed[field]`, but each block's
guards read `value`, the value captured by the `Object.entries` snapshot. -/
def defaultCoerceField (field : String) (value : JSVal) : JSVal :=
  -- strings are trimmed; empty string becomes null
  let v1 := match value with
    | .str s => if jsTrim s == "" then JSVal.null else .str (jsTrim s)
    | _ => value
  -- date columns: invalid moments become null, valid ones become ISO strings
  let v2 :=
    if dateColumn field then
      if jsTruthy value then
        match momentParse value with
        | none => JSVal.null
        | some ms => .str (msToIso ms)
      else v1
    else v1
  -- number columns: `parseFloat(value)` replaces the value when not NaN
  let v3 :=
    if numberColumn field then
      if notNullUndefEmpty value then
        match jsParseFloat value with
        | some q => JSVal.num q
        | none => v2
      else v2
    else v2
  -- the exact strings "true"/"false" (case-insensitive) become booleans
  match value with
  | .str s =>
    if jsToLower s == "true" then .bool true
    else if jsToLower s == "false" then .bool false
    else v3
  | _ => v3

/-- Embedding of `applyDefaultTransformations` (dataTransformer.js 157-200):
the record copy is mutated field by field, each field depending only on its
own snapshot value, so the pass is the pointwise map of `defaultCoerceField`. -/
def applyDefaultTransformations (record : JsRecord) : JsRecord :=
  record.map (fun p => (p.1, defaultCoerceField p.1 p.2))

/-- The per-field transform loop of `applyTransformations` (dataTransformer.js
132-148): a field present in the record is replaced by the transform's result;
a raised error leaves the field unchanged and logs a warning. -/
def applyTransformLoop (record : JsRecord)
    (transformations : List (String × TransformFn)) (originalRecord : JsRecord) :
    JsRecord × List String :=
  transformations.foldl
    (fun acc p =>
      match getField acc.1 p.1 with
      | some v =>
        match p.2 v originalRecord with
        | .ok v' => (setField acc.1 p.1 v', acc.2)
        | .error msg =>
          (acc.1, acc.2 ++ ["Erro na transformação do campo " ++ p.1 ++ ": " ++ msg])
      | none => acc)
    (record, [])

/-- Embedding of `applyTransformations` (dataTransformer.js 129-154).  After
the per-field loop, line 151 executes
`transformedRecord = this.applyDefaultTransformations(transformedRecord);`,
but `transformedRecord` is a `const` binding (line 130), so the assignment
always throws `TypeError: Assignment to constant variable.`; the result of
`applyDefaultTransformations` is computed and discarded.  The returned pair
carries the warnings logged by the loop and the thrown error. -/
def applyTransformations (record : JsRecord)
    (transformations : List (String × TransformFn)) (originalRecord : JsRecord) :
    List String × Except String JsRecord :=
  let looped := applyTransformLoop record transformations originalRecord
  let _ := applyDefaultTransformations looped.1
  (looped.2, .error "TypeError: Assignment to constant variable.")

/-- The `validations` block of a table mapping (etl/config.js). -/
structure Validations where
  required : List String := []
  email : Option String := none
  numeric : List String := []
  positive : List String := []
  maxLength : List (String × Nat) := []
  unique : List String := []

/-- The regex `^[^\s@]+@[^\s@]+\.[^\s@]+$` of `validateRecord`
(dataTransformer.js 219). -/
def emailRegexTest (s : String) : Bool :=
  let cs := s.data
  let lp := cs.takeWhile (fun c => c != '@')
  match cs.drop lp.length with
  | '@' :: dom =>
    !lp.isEmpty && lp.all (fun c => !isJsSpace c) &&
    !dom.isEmpty && dom.all (fun c => !isJsSpace c && c != '@') &&
    ((dom.drop 1).dropLast.contains '.')
  | _ => false

/-- `record[field]` viewed by the validator: an absent property is `undefined`. -/
def fieldOrUndefined (record : JsRecord) (field : String) : JSVal :=
  (getField record field).getD .undefVal

/-- Embedding of `validateRecord` (dataTransformer.js 203-270).  Returns the
record (with `_unique_fields` attached when the mapping declares unique
columns), the `isValid` flag and the error list. -/
def validateRecord (record : JsRecord) (validations : Validations) :
    JsRecord × Bool × List String :=
  let requiredErrors := validations.required.filterMap fun field =>
    if !(jsTruthy (fieldOrUndefined record field)) then
      some ("Campo obrigatório '" ++ field ++ "' está vazio")
    else none
  let emailErrors :=
    match validations.email with
    | none => []
    | some emailField =>
      let v := fieldOrUndefined record emailField
      if jsTruthy v then
        let ok := match v with
          | .str s => emailRegexTest s
          | _ => false
        if ok then [] else ["Campo '" ++ emailField ++ "' não é um email válido"]
      else []
  let numericErrors := validations.numeric.filterMap fun field =>
    let v := fieldOrUndefined record field
    match v with
    | .null => none
    | .undefVal => none
    | _ =>
      match jsParseFloat v with
      | none => some ("Campo '" ++ field ++ "' deve ser numérico")
      | some _ => none
  let positiveErrors := validations.positive.filterMap fun field =>
    let v := fieldOrUndefined record field
    match v with
    | .null => none
    | .undefVal => none
    | _ =>
      match jsParseFloat v with
      | some q => if q ≤ 0 then some ("Campo '" ++ field ++ "' deve ser positivo") else none
      | none => none
  let lengthErrors := validations.maxLength.filterMap fun p =>
    match fieldOrUndefined record p.1 with
    | .str s =>
      if s != "" && s.data.length > p.2 then
        some ("Campo '" ++ p.1 ++ "' excede o comprimento máximo")
      else none
    | _ => none
  let errors := requiredErrors ++ emailErrors ++ numericErrors ++
    positiveErrors ++ lengthErrors
  let record' :=
    if !validations.unique.isEmpty then
      setField record "_unique_fields" (.arr validations.unique)
    else record
  (record', errors.isEmpty, errors)

/-- A table mapping (etl/config.js `ETLConfig.mappings`). -/
structure Mapping where
  sourceTable : String
  targetTable : String
  primaryKey : String
  fieldMapping : List (String × String)
  transformations : List (String × TransformFn)
  validations : Validations

/-- One entry of the `rejectedRecords` list of `transformTable`. -/
structure RejectedRecord where
  sourceRecord : JsRecord
  errors : List String

/-- The `(transformed / input) * 100` success-rate statistic of
`transformTable` (dataTransformer.js 110); `none` models JS `NaN`, which the
unguarded `0 / 0` produces on an empty input batch. -/
def successRate (transformed processed : Nat) : Option ℚ :=
  if processed = 0 then none
  else some ((transformed : ℚ) / (processed : ℚ) * 100)

/-- Result of `transformTable` (dataTransformer.js 101-112). -/
structure TransformTableResult where
  success : Bool
  transformedData : List JsRecord
  rejectedRecords : List RejectedRecord
  recordsProcessed : Nat
  recordsTransformed : Nat
  recordsRejected : Nat
  rate : Option ℚ

/-- Embedding of `transformTable` (dataTransformer.js 17-113): per record,
`mapFields`, then `applyTransformations`; an error thrown there is caught and
the row is pushed to `rejectedRecords`; otherwise the record is validated and
either annotated with `_etl_metadata` and kept, or rejected. -/
def transformTable (mapping : Mapping) (sourceData : List JsRecord)
    (now : String) : TransformTableResult :=
  let step := fun (acc : List JsRecord × List RejectedRecord) (r : JsRecord) =>
    let mapped := mapFields r mapping.fieldMapping
    match (applyTransformations mapped mapping.transformations r).2 with
    | .error msg => (acc.1, acc.2 ++ [⟨r, [msg]⟩])
    | .ok transformed =>
      let v := validateRecord transformed mapping.validations
      if v.2.1 then
        (acc.1 ++ [setField v.1 "_etl_metadata" (.obj
          [("source_table", .str mapping.sourceTable),
           ("target_table", .str mapping.targetTable),
           ("transformed_at", .str now),
           ("source_id", fieldOrUndefined r mapping.primaryKey)])], acc.2)
      else (acc.1, acc.2 ++ [⟨r, v.2.2⟩])
  let td := sourceData.foldl step ([], [])
  { success := true
    transformedData := td.1
    rejectedRecords := td.2
    recordsProcessed := sourceData.length
    recordsTransformed := td.1.length
    recordsRejected := td.2.length
    rate := successRate td.1.length sourceData.length }

/-! ## Claims C1, C6, C9 -/

/-- The spec's wording of the date-column test: name ends in `_at`/`_date` or
begins with `date_`. -/
def dateColumnClaimed (field : String) : Bool :=
  strEndsWith field "_at" || strEndsWith field "_date" || strStartsWith field "date_"

/-- The spec's wording of the number-column test: name equals `id`, contains
`amount`, or ends in `_id`. -/
def numberColumnClaimed (field : String) : Bool :=
  field == "id" || strIncludes field "amount" || strEndsWith field "_id"

/-- The default-coercion pass as the claim words it: the same four blocks, but
with the date and number columns selected by `dateColumnClaimed` and
`numberColumnClaimed`. -/
def claimedCoerceField (field : String) (value : JSVal) : JSVal :=
  let v1 := match value with
    | .str s => if jsTrim s == "" then JSVal.null else .str (jsTrim s)
    | _ => value
  let v2 :=
    if dateColumnClaimed field then
      if jsTruthy value then
        match momentParse value with
        | none => JSVal.null
        | some ms => .str (msToIso ms)
      else v1
    else v1
  let v3 :=
    if numberColumnClaimed field then
      if notNullUndefEmpty value then
        match jsParseFloat value with
        | some q => JSVal.num q
        | none => v2
      else v2
    else v2
  match value with
  | .str s =>
    if jsToLower s == "true" then .bool true
    else if jsToLower s == "false" then .bool false
    else v3
  | _ => v3

def claimedDefaultTransformations (record : JsRecord) : JsRecord :=
  record.map (fun p => (p.1, claimedCoerceField p.1 p.2))

/-- Input on which the code and the claim's column tests disagree: `x_at_y`
contains `_at` without ending in it, and `x_idz` contains `_id` without
ending in it. -/
def C6record : JsRecord := [("x_at_y", .str "not-a-date"), ("x_idz", .str "12abc")]

/-- Claim C6 (counterexample): the column `x_at_y` does not end in `_at`,
`_date` or begin with `date_`, and `x_idz` does not equal `id`, contain
`amount` or end in `_id`, yet the code date-parses the former (nulling the
invalid parse) and number-coerces the latter, because
`applyDefaultTransformations` tests `includes`, not `endsWith`/`startsWith`. -/
theorem C6_counterexample :
    getField (applyDefaultTransformations C6record) "x_at_y" = some .null ∧
    getField (claimedDefaultTransformations C6record) "x_at_y" =
      some (.str "not-a-date") ∧
    (∃ q, getField (applyDefaultTransformations C6record) "x_idz" =
      some (.num q)) ∧
    getField (claimedDefaultTransformations C6record) "x_idz" =
      some (.str "12abc") ∧
    JSVal.null ≠ JSVal.str "not-a-date" ∧ (∀ q : ℚ, JSVal.num q ≠ JSVal.str "12abc") := by
  refine ⟨rfl, rfl, ⟨_, rfl⟩, rfl, ?_, ?_⟩
  · intro h; cases h
  · intro q h; cases h

/-- A value is one of the exact strings `"true"`/`"false"` (case-insensitive),
the guard of the boolean-coercion block. -/
def boolString : JSVal → Bool
  | .str s => jsToLower s == "true" || jsToLower s == "false"
  | _ => false

/-- Claim C6 (amended): the default coercion pass maps every field
independently through the four-block cascade; strings are trimmed with empty
strings becoming null when no other block fires; exactly the columns whose
name CONTAINS `_at`, `_date` or `date_` are parsed as timestamps (invalid
parses become null); exactly the columns whose name equals `id`, contains
`amount`, or CONTAINS `_id` are coerced to number when `parseFloat` succeeds;
and the exact strings `"true"`/`"false"` (case-insensitive) become booleans. -/
theorem C6_default_coercions (r : JsRecord) (f : String) (v : JSVal) :
    applyDefaultTransformations r =
      r.map (fun p => (p.1, defaultCoerceField p.1 p.2)) ∧
    (dateColumn f = false → numberColumn f = false → boolString v = false →
      defaultCoerceField f v =
        (match v with
          | .str s => if jsTrim s == "" then JSVal.null else .str (jsTrim s)
          | _ => v)) ∧
    (dateColumn f = true → numberColumn f = false → boolString v = false →
      jsTruthy v = true → momentParse v = none →
      defaultCoerceField f v = .null) ∧
    (∀ ms, dateColumn f = true → numberColumn f = false → boolString v = false →
      jsTruthy v = true → momentParse v = some ms →
      defaultCoerceField f v = .str (msToIso ms)) ∧
    (∀ q, numberColumn f = true → boolString v = false →
      notNullUndefEmpty v = true → jsParseFloat v = some q →
      defaultCoerceField f v = .num q) ∧
    (∀ s, v = .str s → jsToLower s = "true" → defaultCoerceField f v = .bool true) ∧
    (∀ s, v = .str s → jsToLower s = "false" →
      defaultCoerceField f v = .bool false) := by
  refine ⟨rfl, ?_, ?_, ?_, ?_, ?_, ?_⟩
  · intro hd hn hb
    cases v <;> simp_all [defaultCoerceField, boolString]
  · intro hd hn hb ht hm
    cases v <;> simp_all [defaultCoerceField, boolString]
  · intro ms hd hn hb ht hm
    cases v <;> simp_all [defaultCoerceField, boolString]
  · intro q hn hb hne hp
    cases v <;> simp_all [defaultCoerceField, boolString, notNullUndefEmpty]
  · intro s hv hs
    subst hv
    simp [defaultCoerceField, hs]
  · intro s hv hs
    subst hv
    simp [defaultCoerceField, hs]

/-- Claim C6 (witness for the amended theorem): concrete instances of the
rules. -/
theorem C6_default_coercions_witness :
    defaultCoerceField "name" (.str "  ab ") = .str "ab" ∧
    defaultCoerceField "x_at_y" (.str "not-a-date") = .null ∧
    defaultCoerceField "active" (.str "TRUE") = .bool true := by
  refine ⟨?_, ?_, ?_⟩
  · have h := (C6_default_coercions [] "name" (.str "  ab ")).2.1
      (by decide) (by decide) (by decide)
    rw [h]; rfl
  · have h := (C6_default_coercions [] "x_at_y" (.str "not-a-date")).2.2.1
      (by decide) (by decide) (by decide) (by decide) rfl
    exact h
  · have h := (C6_default_coercions [] "active" (.str "TRUE")).2.2.2.2.2.1
      "TRUE" rfl (by decide)
    exact h

/-- The table mapping and record used to exercise claim C1. -/
def throwingStatusTransform : TransformFn := fun _ _ => .error "boom"

def C1mapping : Mapping :=
  { sourceTable := "users", targetTable := "affiliates", primaryKey := "id"
    fieldMapping := [("id", "external_user_id"), ("status", "status")]
    transformations := [("status", throwingStatusTransform)]
    validations := {} }

def C1record : JsRecord := [("id", .str "7"), ("status", .str "active")]

/-- Claim C1: the per-field loop does leave an erroring field at its
pre-transform value and records a warning, but `applyTransformations` then
reassigns its `const` binding (dataTransformer.js 151), so it throws a
`TypeError` instead of returning a record, and `transformTable` rejects every
row — the row never proceeds to validation or to the transformed output. -/
theorem C1_transform_error_row_rejected :
    applyTransformLoop (mapFields C1record C1mapping.fieldMapping)
        C1mapping.transformations C1record =
      ([("external_user_id", .str "7"), ("status", .str "active")],
       ["Erro na transformação do campo status: boom"]) ∧
    (applyTransformations (mapFields C1record C1mapping.fieldMapping)
        C1mapping.transformations C1record).2 =
      .error "TypeError: Assignment to constant variable." ∧
    (transformTable C1mapping [C1record] "2025-01-01T00:00:00.000Z").transformedData
      = [] ∧
    (transformTable C1mapping [C1record] "2025-01-01T00:00:00.000Z").rejectedRecords
      = [⟨C1record, ["TypeError: Assignment to constant variable."]⟩] := by
  exact ⟨rfl, rfl, rfl, rfl⟩

/-- Claim C9: the success rate is the unguarded `(transformed / input) * 100`,
so an empty input batch produces `NaN` (modelled as `none`), not the `100.00`
the spec defines. -/
theorem C9_successRate_NaN_on_empty :
    (∀ mapping data now, (transformTable mapping data now).rate =
      successRate (transformTable mapping data now).recordsTransformed
        data.length) ∧
    (transformTable C1mapping [] "2025-01-01T00:00:00.000Z").rate = none ∧
    (none : Option ℚ) ≠ some 100 := by
  refine ⟨fun mapping data now => rfl, rfl, fun h => by cases h⟩

/-! ## TargetWriter: embedding of DataLoader (loader portion of the sources) -/

/-- A PostgreSQL error as surfaced by node-postgres: `code` is the SQLSTATE. -/
structure PgError where
  code : String

/-- The target database's behaviour for one row of a batch:
`findExistingRecord` either finds a row (then `updateRecord` runs) or not
(then `insertRecord` runs); any of the three queries may raise. -/
inductive RowResponse where
  | found (updateResult : Except PgError Unit)
  | notFound (insertResult : Except PgError Unit)
  | lookupErr (e : PgError)

/-- The loader's `loadStats` counters. -/
structure LoadStats where
  recordsLoaded : Nat := 0
  recordsSkipped : Nat := 0
  recordsUpdated : Nat := 0
  recordsInserted : Nat := 0
  errorCodes : List String := []

/-- Embedding of `loadRecord` (loader, dataService.js concatenation
1301-1350): update or insert, counting updated/inserted/loaded; on any error
the error is recorded, a unique-constraint violation (SQLSTATE 23505) is
counted as skipped and swallowed, and every other error is re-thrown together
with the instance stats it already mutated. -/
def loadRecord (stats : LoadStats) (resp : RowResponse) :
    Except (PgError × LoadStats) LoadStats :=
  match resp with
  | .found (.ok _) =>
    .ok { stats with recordsUpdated := stats.recordsUpdated + 1,
                     recordsLoaded := stats.recordsLoaded + 1 }
  | .notFound (.ok _) =>
    .ok { stats with recordsInserted := stats.recordsInserted + 1,
                     recordsLoaded := stats.recordsLoaded + 1 }
  | .found (.error e) | .notFound (.error e) | .lookupErr e =>
    let stats' := { stats with errorCodes := stats.errorCodes ++ [e.code] }
    if e.code == "23505" then
      .ok { stats' with recordsSkipped := stats'.recordsSkipped + 1 }
    else .error (e, stats')

/-- Outcome of one batch transaction: `COMMIT`, or `ROLLBACK` with the error
re-thrown by the failing row. -/
inductive TxOutcome where
  | committed (stats : LoadStats)
  | rolledBack (e : PgError) (stats : LoadStats)

def loadBatchGo (stats : LoadStats) : List RowResponse → TxOutcome
  | [] => .committed stats
  | r :: rest =>
    match loadRecord stats r with
    | .ok s' => loadBatchGo s' rest
    | .error (e, s') => .rolledBack e s'

/-- Embedding of `loadBatch` (1276-1298): `BEGIN`, each record through
`loadRecord`, then `COMMIT`; an error from any record triggers `ROLLBACK` and
re-throws. -/
def loadBatch (batch : List RowResponse) (stats : LoadStats) : TxOutcome :=
  loadBatchGo stats batch

/-- A row that either succeeded or raised a unique-constraint violation. -/
def rowOkOrUnique : RowResponse → Bool
  | .found (.ok _) | .notFound (.ok _) => true
  | .found (.error e) | .notFound (.error e) | .lookupErr e => e.code == "23505"

/-- A row that raised a unique-constraint violation (SQLSTATE 23505). -/
def rowUniqueViolation : RowResponse → Bool
  | .found (.ok _) | .notFound (.ok _) => false
  | .found (.error e) | .notFound (.error e) | .lookupErr e => e.code == "23505"

theorem loadRecord_spec (st : LoadStats) (r : RowResponse) :
    (rowOkOrUnique r = true ∧ rowUniqueViolation r = false ∧
      ∃ s', loadRecord st r = .ok s' ∧ s'.recordsSkipped = st.recordsSkipped) ∨
    (rowOkOrUnique r = true ∧ rowUniqueViolation r = true ∧
      ∃ s', loadRecord st r = .ok s' ∧ s'.recordsSkipped = st.recordsSkipped + 1) ∨
    (rowOkOrUnique r = false ∧
      ∃ e s', loadRecord st r = .error (e, s') ∧ ¬ e.code = "23505") := by
  have handle : ∀ e : PgError, ∀ res : RowResponse,
      rowOkOrUnique res = (e.code == "23505") →
      rowUniqueViolation res = (e.code == "23505") →
      loadRecord st res = (if e.code == "23505" then
        .ok { st with errorCodes := st.errorCodes ++ [e.code],
                      recordsSkipped := st.recordsSkipped + 1 }
        else .error (e, { st with errorCodes := st.errorCodes ++ [e.code] })) →
      (rowOkOrUnique res = true ∧ rowUniqueViolation res = false ∧
        ∃ s', loadRecord st res = .ok s' ∧ s'.recordsSkipped = st.recordsSkipped) ∨
      (rowOkOrUnique res = true ∧ rowUniqueViolation res = true ∧
        ∃ s', loadRecord st res = .ok s' ∧
          s'.recordsSkipped = st.recordsSkipped + 1) ∨
      (rowOkOrUnique res = false ∧
        ∃ e' s', loadRecord st res = .error (e', s') ∧ ¬ e'.code = "23505") := by
    intro e res hok hv hrec
    cases hB : (e.code == "23505") with
    | true =>
      right; left
      rw [hB] at hok hv hrec
      rw [if_pos rfl] at hrec
      exact ⟨hok, hv, _, hrec, rfl⟩
    | false =>
      right; right
      rw [hB] at hok hrec
      rw [if_neg (by simp)] at hrec
      exact ⟨hok, e, _, hrec, by simpa using hB⟩
  rcases r with u | u | e
  · rcases u with e | x
    · exact handle e _ rfl rfl (by rfl)
    · left
      exact ⟨rfl, rfl, _, rfl, rfl⟩
  · rcases u with e | x
    · exact handle e _ rfl rfl (by rfl)
    · left
      exact ⟨rfl, rfl, _, rfl, rfl⟩
  · exact handle e _ rfl rfl (by rfl)

/-- Claim C2: a 23505 on a row is counted as skipped and the batch continues
and commits; any other per-row error rolls back the whole batch; the
transaction commits iff every row succeeded or was classified as skipped. -/
theorem C2_unique_conflict_skipped_commit (batch : List RowResponse)
    (stats0 : LoadStats) :
    ((∃ s, loadBatch batch stats0 = .committed s) ↔
      ∀ r ∈ batch, rowOkOrUnique r = true) ∧
    (∀ s, loadBatch batch stats0 = .committed s →
      s.recordsSkipped = stats0.recordsSkipped +
        (batch.filter rowUniqueViolation).length) ∧
    (∀ e s, loadBatch batch stats0 = .rolledBack e s →
      ¬ e.code = "23505" ∧ ∃ r ∈ batch, rowOkOrUnique r = false) := by
  induction batch generalizing stats0 with
  | nil =>
    refine ⟨⟨fun _ => by simp, fun _ => ⟨stats0, rfl⟩⟩, ?_, ?_⟩
    · intro s hs
      simp only [loadBatch, loadBatchGo] at hs
      cases hs
      simp
    · intro e s hs
      simp only [loadBatch, loadBatchGo] at hs
      cases hs
  | cons r rest ih =>
    have step : ∀ st, loadBatch (r :: rest) st = (match loadRecord st r with
      | .ok s' => loadBatch rest s'
      | .error (e, s') => TxOutcome.rolledBack e s') := by
      intro st
      simp only [loadBatch, loadBatchGo]
    rcases loadRecord_spec stats0 r with ⟨hok, hnv, s', hrec, hsk⟩ |
      ⟨hok, hv, s', hrec, hsk⟩ | ⟨hbad, e, s', hrec, hne⟩
    · refine ⟨⟨?_, ?_⟩, ?_, ?_⟩
      · rintro ⟨s, hs⟩ r' hr'
        rw [step, hrec] at hs
        rcases List.mem_cons.mp hr' with h | h
        · rw [h]; exact hok
        · exact ((ih s').1.mp ⟨s, hs⟩) r' h
      · intro hall
        obtain ⟨s, hs⟩ := (ih s').1.mpr
          (fun r' h => hall r' (List.mem_cons_of_mem r h))
        exact ⟨s, by rw [step, hrec]; exact hs⟩
      · intro s hs
        rw [step, hrec] at hs
        have hc := ((ih s').2.1) s hs
        simp [List.filter_cons, hnv, hsk] at hc ⊢
        omega
      · intro e s hs
        rw [step, hrec] at hs
        obtain ⟨hne, r', hr', hbadr⟩ := ((ih s').2.2) e s hs
        exact ⟨hne, r', List.mem_cons_of_mem r hr', hbadr⟩
    · refine ⟨⟨?_, ?_⟩, ?_, ?_⟩
      · rintro ⟨s, hs⟩ r' hr'
        rw [step, hrec] at hs
        rcases List.mem_cons.mp hr' with h | h
        · rw [h]; exact hok
        · exact ((ih s').1.mp ⟨s, hs⟩) r' h
      · intro hall
        obtain ⟨s, hs⟩ := (ih s').1.mpr
          (fun r' h => hall r' (List.mem_cons_of_mem r h))
        exact ⟨s, by rw [step, hrec]; exact hs⟩
      · intro s hs
        rw [step, hrec] at hs
        have hc := ((ih s').2.1) s hs
        simp [List.filter_cons, hv, hsk] at hc ⊢
        omega
      · intro e s hs
        rw [step, hrec] at hs
        obtain ⟨hne, r', hr', hbadr⟩ := ((ih s').2.2) e s hs
        exact ⟨hne, r', List.mem_cons_of_mem r hr', hbadr⟩
    · refine ⟨⟨?_, ?_⟩, ?_, ?_⟩
      · rintro ⟨s, hs⟩ r' hr'
        rw [step, hrec] at hs
        cases hs
      · intro hall
        have hr := hall r (List.mem_cons_self r rest)
        rw [hbad] at hr
        cases hr
      · intro s hs
        rw [step, hrec] at hs
        cases hs
      · intro e' s hs
        rw [step, hrec] at hs
        cases hs
        exact ⟨hne, r, List.mem_cons_self r rest, hbad⟩

/-- Claim C2 (witness): a batch whose first row inserts and whose second raises
a unique-constraint violation commits. -/
theorem C2_unique_conflict_skipped_commit_witness :
    (∀ r ∈ [RowResponse.notFound (.ok ()),
      RowResponse.notFound (.error ⟨"23505"⟩)], rowOkOrUnique r = true) ∧
    ∃ s, loadBatch [RowResponse.notFound (.ok ()),
      RowResponse.notFound (.error ⟨"23505"⟩)] {} = .committed s :=
  ⟨by decide,
    (C2_unique_conflict_skipped_commit _ {}).1.mpr (by decide)⟩

/-! ## Scheduler: embedding of ETLScheduler (scheduler portion of the sources)

The scheduler's mutable state is the `currentJobs` set, the `stats.totalJobs`
counter and the number of "já em execução" warnings logged.  `running k`
counts the `executeX` bodies of kind `k` currently between the `add` and the
`finally`-`delete`; the guard, `add` and counter increment run synchronously
(no `await` between them), so one fire is one atomic step. -/

inductive JobKind where
  | fullSync
  | incrementalSync
  | cleanup
deriving DecidableEq

structure SchedulerState where
  currentJobs : List JobKind
  running : JobKind → Nat
  totalJobs : Nat
  warnings : Nat

inductive SchedEvent where
  | fire (k : JobKind)
  | finish (k : JobKind)

/-- A cron fire of kind `k`: embedding of the guard prologue shared by
`executeFullSync` (729-743), `executeIncrementalSync` (787-798) and
`executeCleanup`: if the kind is already in `currentJobs`, log a warning and
return; otherwise add it and increment `stats.totalJobs`. -/
def fireJob (s : SchedulerState) (k : JobKind) : SchedulerState :=
  if k ∈ s.currentJobs then { s with warnings := s.warnings + 1 }
  else
    { s with currentJobs := k :: s.currentJobs
             totalJobs := s.totalJobs + 1
             running := fun k' => if k' = k then s.running k' + 1 else s.running k' }

/-- A running body of kind `k` reaching its `finally`:
`this.currentJobs.delete(kind)`. -/
def finishJob (s : SchedulerState) (k : JobKind) : SchedulerState :=
  if s.running k = 0 then s
  else
    { s with currentJobs := s.currentJobs.erase k
             running := fun k' => if k' = k then s.running k' - 1 else s.running k' }

def initSchedulerState : SchedulerState :=
  { currentJobs := [], running := fun _ => 0, totalJobs := 0, warnings := 0 }

def schedStep (s : SchedulerState) : SchedEvent → SchedulerState
  | .fire k => fireJob s k
  | .finish k => finishJob s k

def runSched (events : List SchedEvent) : SchedulerState :=
  events.foldl schedStep initSchedulerState

/-- The scheduler invariant tying the `currentJobs` set to the running count. -/
def SchedInv (s : SchedulerState) : Prop :=
  s.currentJobs.Nodup ∧ ∀ k, (s.running k ≤ 1 ∧ (k ∈ s.currentJobs ↔ s.running k = 1))

theorem schedInv_init : SchedInv initSchedulerState := by
  refine ⟨List.nodup_nil, fun k => ⟨by simp [initSchedulerState], ?_⟩⟩
  simp [initSchedulerState]

theorem schedInv_step (s : SchedulerState) (e : SchedEvent) (h : SchedInv s) :
    SchedInv (schedStep s e) := by
  obtain ⟨hnd, hinv⟩ := h
  rcases e with k | k
  · simp only [schedStep, fireJob]
    split_ifs with hmem
    · exact ⟨hnd, hinv⟩
    · refine ⟨List.nodup_cons.mpr ⟨hmem, hnd⟩, fun k' => ?_⟩
      rcases eq_or_ne k' k with h' | h'
      · subst h'
        have hne1 : s.running k' ≠ 1 := fun h1 => hmem ((hinv k').2.mpr h1)
        have h0 : s.running k' = 0 := by have := (hinv k').1; omega
        exact ⟨by simp [h0], by simp [h0]⟩
      · exact ⟨by simpa [h'] using (hinv k').1, by simpa [h'] using (hinv k').2⟩
  · simp only [schedStep, finishJob]
    split_ifs with hz
    · exact ⟨hnd, hinv⟩
    · refine ⟨hnd.erase k, fun k' => ?_⟩
      rcases eq_or_ne k' k with h' | h'
      · subst h'
        have h1 : s.running k' = 1 := by have := (hinv k').1; omega
        refine ⟨by simp [h1], ?_⟩
        constructor
        · intro hm
          exact absurd hm hnd.not_mem_erase
        · intro hc
          simp [h1] at hc
      · refine ⟨by simpa [h'] using (hinv k').1, ?_⟩
        rw [List.mem_erase_of_ne h']
        simpa [h'] using (hinv k').2

theorem schedInv_run (events : List SchedEvent) : SchedInv (runSched events) := by
  suffices h : ∀ s, SchedInv s → SchedInv (events.foldl schedStep s) from
    h initSchedulerState schedInv_init
  induction events with
  | nil => exact fun s hs => hs
  | cons e rest ih => exact fun s hs => ih (schedStep s e) (schedInv_step s e hs)

/-- Claim C3: at most one fire of each job kind runs at any instant; a fire of
a kind already in `currentJobs` only logs a warning — `totalJobs`, the running
count and the set are untouched; fires of independent kinds may overlap. -/
theorem C3_at_most_one_per_kind (events : List SchedEvent) (k : JobKind) :
    (runSched events).running k ≤ 1 ∧
    (k ∈ (runSched events).currentJobs →
      fireJob (runSched events) k =
        { runSched events with warnings := (runSched events).warnings + 1 }) ∧
    (∃ overlapping, (runSched overlapping).running .fullSync = 1 ∧
      (runSched overlapping).running .incrementalSync = 1) := by
  refine ⟨((schedInv_run events).2 k).1, ?_, ?_⟩
  · intro hmem
    simp only [fireJob, if_pos hmem]
  · exact ⟨[.fire .fullSync, .fire .incrementalSync], by decide, by decide⟩

/-- Claim C3 (witness): after one fullSync fire, a second fullSync fire is
dropped with only a warning. -/
theorem C3_at_most_one_per_kind_witness :
    JobKind.fullSync ∈ (runSched [SchedEvent.fire .fullSync]).currentJobs ∧
    fireJob (runSched [SchedEvent.fire .fullSync]) .fullSync =
      { runSched [SchedEvent.fire .fullSync] with
        warnings := (runSched [SchedEvent.fire .fullSync]).warnings + 1 } :=
  ⟨by decide,
    (C3_at_most_one_per_kind [SchedEvent.fire .fullSync] .fullSync).2.1 (by decide)⟩

/-! ## AnalyticsEngine persistence: embedding of `upsertUserAnalytics`
(dataModel.js 99-173) against the `user_analytics` table of the DDL
(UNIQUE on `(user_id, period_type, period_start)`). -/

/-- The 24 columns carried by one analytics write (the `analytics` object of
`generateUserAnalytics`, dataService.js 217-252, after the `|| 0` defaults of
the model's values array). -/
structure UserAnalyticsWrite where
  user_id : Int
  affiliate_id : Option Int
  period_type : String
  period_start : Int
  period_end : Int
  total_deposits : ℚ
  deposit_count : Nat
  first_deposit_date : Option Int
  last_deposit_date : Option Int
  avg_deposit_amount : ℚ
  total_bets : ℚ
  bet_count : Nat
  first_bet_date : Option Int
  last_bet_date : Option Int
  avg_bet_amount : ℚ
  days_active : Nat
  sessions_count : Nat
  total_session_time_minutes : Nat
  total_wins : ℚ
  total_losses : ℚ
  net_result : ℚ
  cpa_qualified : Bool
  cpa_qualification_date : Option Int
  cpa_amount : ℚ

/-- One persisted `user_analytics` row: the uuid primary key (as a surrogate
`Nat`), the 24 upsertable columns, and the `last_updated`/`created_at`
timestamps (DDL defaults `CURRENT_TIMESTAMP`). -/
structure UserAnalyticsRow where
  rowId : Nat
  cols : UserAnalyticsWrite
  last_updated : Int
  created_at : Int

/-- The conflict key `(user_id, period_type, period_start)`. -/
def uaKey (w : UserAnalyticsWrite) : Int × String × Int :=
  (w.user_id, w.period_type, w.period_start)

/-- The `UNIQUE(user_id, period_type, period_start)` constraint, stated
behaviourally: no key matches more than one row. -/
def uaKeysUnique (table : List UserAnalyticsRow) : Prop :=
  ∀ k, (table.filter fun r => decide (uaKey r.cols = k)).length ≤ 1

/-- Embedding of `upsertUserAnalytics` (dataModel.js 99-173):
`INSERT ... ON CONFLICT (user_id, period_type, period_start) DO UPDATE SET`
every non-key column `= EXCLUDED.<column>` and
`last_updated = CURRENT_TIMESTAMP`.  On conflict the matching row keeps its
`id` and `created_at` and takes every written column from the new write; with
no conflict a fresh row is inserted. -/
def upsertUserAnalytics (table : List UserAnalyticsRow)
    (w : UserAnalyticsWrite) (now : Int) (freshId : Nat) :
    List UserAnalyticsRow :=
  if table.any fun r => decide (uaKey r.cols = uaKey w) then
    table.map fun r =>
      if uaKey r.cols = uaKey w then
        { r with cols := w, last_updated := now }
      else r
  else
    table ++ [{ rowId := freshId, cols := w, last_updated := now,
                created_at := now }]

theorem upsert_filter_map_key (table : List UserAnalyticsRow)
    (w : UserAnalyticsWrite) (now : Int) (k' : Int × String × Int) :
    ((table.map fun r => if uaKey r.cols = uaKey w then
        { r with cols := w, last_updated := now } else r).filter
      fun r => decide (uaKey r.cols = k')).length =
    (table.filter fun r => decide (uaKey r.cols = k')).length := by
  rw [← List.countP_eq_length_filter, ← List.countP_eq_length_filter,
    List.countP_map]
  refine List.countP_congr fun r _ => ?_
  simp only [Function.comp_apply]
  constructor
  · intro h
    split_ifs at h with hk
    · simpa [hk] using h
    · exact h
  · intro h
    split_ifs with hk
    · have : uaKey r.cols = k' := by simpa using h
      simpa [← hk, this] using h
    · exact h

theorem filter_singleton_length_le (r : UserAnalyticsRow)
    (p : UserAnalyticsRow → Bool) :
    (([r] : List UserAnalyticsRow).filter p).length ≤ 1 := by
  by_cases h : p r <;> simp [List.filter_cons, h]

theorem filter_pos_of_any (table : List UserAnalyticsRow)
    (p : UserAnalyticsRow → Bool) (h : table.any p = true) :
    0 < (table.filter p).length := by
  obtain ⟨x, hx, hp⟩ := List.any_eq_true.mp h
  exact List.length_pos_of_mem (List.mem_filter.mpr ⟨hx, hp⟩)

theorem upsert_spec (table : List UserAnalyticsRow) (w : UserAnalyticsWrite)
    (now : Int) (freshId : Nat) (hU : uaKeysUnique table) :
    uaKeysUnique (upsertUserAnalytics table w now freshId) ∧
    ((upsertUserAnalytics table w now freshId).filter
      fun r => decide (uaKey r.cols = uaKey w)).length = 1 ∧
    ∀ r ∈ upsertUserAnalytics table w now freshId, uaKey r.cols = uaKey w →
      r.cols = w ∧ r.last_updated = now := by
  simp only [upsertUserAnalytics]
  split_ifs with hex
  · refine ⟨?_, ?_, ?_⟩
    · intro k'
      rw [upsert_filter_map_key]
      exact hU k'
    · rw [upsert_filter_map_key]
      have hpos := filter_pos_of_any table _ hex
      have hle := hU (uaKey w)
      omega
    · intro r hr hk
      obtain ⟨r0, hr0, heq⟩ := List.mem_map.mp hr
      by_cases hk0 : uaKey r0.cols = uaKey w
      · rw [if_pos hk0] at heq
        rw [← heq]
        exact ⟨rfl, rfl⟩
      · rw [if_neg hk0] at heq
        rw [← heq] at hk
        exact absurd hk hk0
  · have hnone : ∀ r ∈ table, ¬ uaKey r.cols = uaKey w := by
      intro r hr hk
      rw [List.any_eq_true] at hex
      exact hex ⟨r, hr, by simpa using hk⟩
    have hempty : ∀ k', uaKey w = k' →
        (table.filter fun r => decide (uaKey r.cols = k')).length = 0 := by
      intro k' hk2
      rw [List.length_eq_zero, List.filter_eq_nil_iff]
      intro r hr
      simpa [← hk2] using hnone r hr
    refine ⟨?_, ?_, ?_⟩
    · intro k'
      rw [List.filter_append, List.length_append]
      by_cases hk2 : uaKey w = k'
      · have hone := filter_singleton_length_le
          { rowId := freshId, cols := w, last_updated := now, created_at := now }
          (fun r => decide (uaKey r.cols = k'))
        have := hempty k' hk2
        omega
      · have h1 := hU k'
        have h2 : ((List.filter (fun r => decide (uaKey r.cols = k'))
            [({ rowId := freshId, cols := w, last_updated := now,
                created_at := now } : UserAnalyticsRow)])).length = 0 := by
          rw [List.length_eq_zero, List.filter_eq_nil_iff]
          intro r hr
          rw [List.mem_singleton.mp hr]
          simpa using hk2
        omega
    · rw [List.filter_append, List.length_append, hempty (uaKey w) rfl]
      simp [List.filter_cons]
    · intro r hr hk
      rcases List.mem_append.mp hr with h | h
      · exact absurd hk (hnone r h)
      · rw [List.mem_singleton.mp h]
        exact ⟨rfl, rfl⟩

/-- Claim C4: two analytics writes with the same
`(user_id, period_type, period_start)` key leave exactly one `user_analytics`
row for that key, and its columns (all the non-key fields, `period_end` and
the metric fields included) are those of the most recent write, with
`last_updated` set to the write time. -/
theorem C4_upsert_same_key_single_row (table : List UserAnalyticsRow)
    (w1 w2 : UserAnalyticsWrite) (t1 t2 : Int) (id1 id2 : Nat)
    (hU : uaKeysUnique table) (hkey : uaKey w1 = uaKey w2) :
    uaKeysUnique (upsertUserAnalytics
      (upsertUserAnalytics table w1 t1 id1) w2 t2 id2) ∧
    ((upsertUserAnalytics (upsertUserAnalytics table w1 t1 id1) w2 t2 id2).filter
      fun r => decide (uaKey r.cols = uaKey w2)).length = 1 ∧
    ∀ r ∈ upsertUserAnalytics (upsertUserAnalytics table w1 t1 id1) w2 t2 id2,
      uaKey r.cols = uaKey w2 →
      r.cols = w2 ∧ r.last_updated = t2 ∧
      r.cols.period_end = w2.period_end ∧
      r.cols.net_result = w2.net_result ∧
      r.cols.total_deposits = w2.total_deposits := by
  have h1 := upsert_spec table w1 t1 id1 hU
  have h2 := upsert_spec (upsertUserAnalytics table w1 t1 id1) w2 t2 id2 h1.1
  refine ⟨h2.1, h2.2.1, fun r hr hk => ?_⟩
  obtain ⟨hcols, hlu⟩ := h2.2.2 r hr hk
  exact ⟨hcols, hlu, by rw [hcols], by rw [hcols], by rw [hcols]⟩

/-- The two writes of the C4 witness. -/
def C4write1 : UserAnalyticsWrite :=
  { user_id := 42, affiliate_id := none, period_type := "DAILY"
    period_start := 1741564800000, period_end := 1741651199999
    total_deposits := 10, deposit_count := 1, first_deposit_date := none
    last_deposit_date := none, avg_deposit_amount := 10, total_bets := 0
    bet_count := 0, first_bet_date := none, last_bet_date := none
    avg_bet_amount := 0, days_active := 1, sessions_count := 1
    total_session_time_minutes := 5, total_wins := 0, total_losses := 0
    net_result := 0, cpa_qualified := false, cpa_qualification_date := none
    cpa_amount := 0 }

def C4write2 : UserAnalyticsWrite :=
  { C4write1 with total_deposits := 20, deposit_count := 2 }

/-- Claim C4 (witness): the double upsert on an empty table keeps a single
row for the shared key. -/
theorem C4_upsert_same_key_single_row_witness :
    uaKeysUnique ([] : List UserAnalyticsRow) ∧ uaKey C4write1 = uaKey C4write2 ∧
    ((upsertUserAnalytics (upsertUserAnalytics [] C4write1 100 1) C4write2 200 2).filter
      fun r => decide (uaKey r.cols = uaKey C4write2)).length = 1 :=
  ⟨fun k => by simp, rfl,
    (C4_upsert_same_key_single_row [] C4write1 C4write2 100 200 1 2
      (fun k => by simp) rfl).2.1⟩

/-! ## AnalyticsEngine metric computation (dataService.js 203-264, 442-531) -/

/-- A row fetched from the external database (deposits, bets, transactions);
only the columns the metric calculations read are modelled. -/
structure ExtRow where
  amount : JSVal := .null
  win_amount : JSVal := .null
  result : JSVal := .null
  created_at : JSVal := .null

/-- NaN-propagating JS addition on numbers. -/
def jsAdd : Option ℚ → Option ℚ → Option ℚ
  | some a, some b => some (a + b)
  | _, _ => none

/-- NaN-propagating JS division (division by zero also leaves the rationals). -/
def jsDivQ : Option ℚ → Option ℚ → Option ℚ
  | some a, some b => if b = 0 then none else some (a / b)
  | _, _ => none

/-- `x || 0`: NaN and `0` are falsy. -/
def jsOrQ (v : Option ℚ) (d : ℚ) : ℚ :=
  match v with
  | none => d
  | some q => if q = 0 then d else q

/-- `parseFloat(row.amount || 0)` as applied inside the metric reducers. -/
def amountOrZero (v : JSVal) : Option ℚ :=
  if jsTruthy v then jsParseFloat v else some 0

/-- `sum + parseFloat(x.amount || 0)` folded with initial `0`. -/
def sumAmounts (f : ExtRow → JSVal) (rows : List ExtRow) : Option ℚ :=
  rows.foldl (fun acc r => jsAdd acc (amountOrZero (f r))) (some 0)

/-- `new Date(Math.min(...rows.map(r => new Date(r.created_at))))`: NaN
(`none`) when any date is invalid. -/
def jsDatesMin (rows : List ExtRow) : Option Int :=
  let ds := rows.map fun r => momentParse r.created_at
  if ds.all Option.isSome then (ds.filterMap id).min? else none

def jsDatesMax (rows : List ExtRow) : Option Int :=
  let ds := rows.map fun r => momentParse r.created_at
  if ds.all Option.isSome then (ds.filterMap id).max? else none

structure AmountMetrics where
  total : Option ℚ
  count : Nat
  avg : Option ℚ
  first_date : Option Int
  last_date : Option Int

/-- Embedding of `calculateDepositMetrics` (dataService.js 442-452). -/
def calculateDepositMetrics (deposits : List ExtRow) : AmountMetrics :=
  if deposits.length = 0 then
    { total := some 0, count := 0, avg := some 0
      first_date := none, last_date := none }
  else
    let total := sumAmounts (fun d => d.amount) deposits
    let count := deposits.length
    let avg := if count > 0 then jsDivQ total (some (count : ℚ)) else some 0
    { total := total, count := count, avg := avg
      first_date := jsDatesMin deposits, last_date := jsDatesMax deposits }

/-- Embedding of `calculateBetMetrics` (dataService.js 454-464). -/
def calculateBetMetrics (bets : List ExtRow) : AmountMetrics :=
  calculateDepositMetrics bets

/-- `bet.result === 'win'` (strict equality against a string literal). -/
def resultIs (lit : String) (r : ExtRow) : Bool :=
  match r.result with
  | .str s => s == lit
  | _ => false

/-- Embedding of `calculateResultMetrics` (dataService.js 482-494):
wins over `win_amount` of the `result === 'win'` bets, losses over `amount`
of the `result === 'loss'` bets. -/
def calculateResultMetrics (bets : List ExtRow) : Option ℚ × Option ℚ :=
  if bets.length = 0 then (some 0, some 0)
  else
    (sumAmounts (fun b => b.win_amount) (bets.filter (resultIs "win")),
     sumAmounts (fun b => b.amount) (bets.filter (resultIs "loss")))

/-- Embedding of `calculateActivityMetrics` (dataService.js 466-480):
distinct `YYYY-MM-DD` keys over transactions ++ bets (every invalid date
formats to the single string "Invalid date", modelled as `none`), with the
session heuristics. -/
def calculateActivityMetrics (transactions bets : List ExtRow) :
    Nat × Nat × Nat :=
  let all := transactions ++ bets
  if all.length = 0 then (0, 0, 0)
  else
    let dayKeys := all.map fun r => (momentParse r.created_at).map (· / dayMs)
    (dayKeys.dedup.length, (all.length + 9) / 10, all.length * 5)

structure CpaMetrics where
  qualified : Bool
  qualification_date : Option Int
  amount : ℚ

/-- `x >= c` under JS semantics: false when `x` is NaN. -/
def jsGeQ (a : Option ℚ) (c : ℚ) : Bool :=
  match a with
  | some q => decide (c ≤ q)
  | none => false

/-- Embedding of `calculateCpaMetrics` (dataService.js 496-531) with the
qualification check of line 516:
`totalDeposits >= 30 && betCount >= 10 && totalBets >= 100`. -/
def calculateCpaMetrics (deposits bets : List ExtRow) (cpaLevel1 : ℚ)
    (now : Int) : CpaMetrics :=
  let totalDeposits := sumAmounts (fun d => d.amount) deposits
  let totalBets := sumAmounts (fun b => b.amount) bets
  let betCount := bets.length
  if jsGeQ totalDeposits 30 && decide (10 ≤ betCount) && jsGeQ totalBets 100 then
    { qualified := true, qualification_date := some now, amount := cpaLevel1 }
  else
    { qualified := false, qualification_date := none, amount := 0 }

/-- The `analytics` object assembled by `generateUserAnalytics`
(dataService.js 217-252). -/
def buildUserAnalytics (userId : Int) (affiliateId : Option Int)
    (periodType : String) (periodStart periodEnd : Int)
    (deposits bets transactions : List ExtRow) (cpa : CpaMetrics) :
    UserAnalyticsWrite :=
  let dm := calculateDepositMetrics deposits
  let bm := calculateBetMetrics bets
  let am := calculateActivityMetrics transactions bets
  let rm := calculateResultMetrics bets
  { user_id := userId, affiliate_id := affiliateId, period_type := periodType
    period_start := periodStart, period_end := periodEnd
    total_deposits := jsOrQ dm.total 0, deposit_count := dm.count
    first_deposit_date := dm.first_date, last_deposit_date := dm.last_date
    avg_deposit_amount := jsOrQ dm.avg 0
    total_bets := jsOrQ bm.total 0, bet_count := bm.count
    first_bet_date := bm.first_date, last_bet_date := bm.last_date
    avg_bet_amount := jsOrQ bm.avg 0
    days_active := am.1, sessions_count := am.2.1
    total_session_time_minutes := am.2.2
    total_wins := jsOrQ rm.1 0, total_losses := jsOrQ rm.2 0
    net_result := jsOrQ rm.1 0 - jsOrQ rm.2 0
    cpa_qualified := cpa.qualified
    cpa_qualification_date := cpa.qualification_date
    cpa_amount := cpa.amount }

/-- Claim C8: at write time `net_result = total_wins - total_losses`;
`avg_deposit_amount * deposit_count` equals `total_deposits` (within the 0.01
tolerance) when `deposit_count > 0`, and `avg_deposit_amount = 0` when
`deposit_count = 0`. -/
theorem C8_derived_metrics (userId : Int) (affiliateId : Option Int)
    (periodType : String) (periodStart periodEnd : Int)
    (deposits bets transactions : List ExtRow) (cpa : CpaMetrics) :
    (buildUserAnalytics userId affiliateId periodType periodStart periodEnd
      deposits bets transactions cpa).net_result =
      (buildUserAnalytics userId affiliateId periodType periodStart periodEnd
        deposits bets transactions cpa).total_wins -
      (buildUserAnalytics userId affiliateId periodType periodStart periodEnd
        deposits bets transactions cpa).total_losses ∧
    ((buildUserAnalytics userId affiliateId periodType periodStart periodEnd
        deposits bets transactions cpa).deposit_count ≠ 0 →
      |(buildUserAnalytics userId affiliateId periodType periodStart periodEnd
          deposits bets transactions cpa).avg_deposit_amount *
        ((buildUserAnalytics userId affiliateId periodType periodStart periodEnd
          deposits bets transactions cpa).deposit_count : ℚ) -
        (buildUserAnalytics userId affiliateId periodType periodStart periodEnd
          deposits bets transactions cpa).total_deposits| ≤ 1 / 100) ∧
    ((buildUserAnalytics userId affiliateId periodType periodStart periodEnd
        deposits bets transactions cpa).deposit_count = 0 →
      (buildUserAnalytics userId affiliateId periodType periodStart periodEnd
        deposits bets transactions cpa).avg_deposit_amount = 0) := by
  refine ⟨rfl, ?_, ?_⟩
  · intro hne
    simp only [buildUserAnalytics, calculateDepositMetrics] at hne ⊢
    split_ifs at hne ⊢ with hlen
    · exact absurd rfl hne
    · rcases htot : sumAmounts (fun d => d.amount) deposits with _ | q
      · simp [jsDivQ, jsOrQ, htot, if_pos, hlen]
      · have hlq : ((deposits.length : ℚ)) ≠ 0 := by
          exact_mod_cast hlen
        rcases eq_or_ne q 0 with hq | hq
        · simp [jsDivQ, jsOrQ, htot, hlq, hq, hlen]
        · have hdiv : q / (deposits.length : ℚ) ≠ 0 := div_ne_zero hq hlq
          simp only [jsDivQ, jsOrQ, htot, if_neg hlq, if_neg hq, if_neg hdiv,
            if_pos (Nat.pos_of_ne_zero hlen)]
          rw [div_mul_cancel₀ _ hlq]
          simp
    · omega
  · intro hz
    simp only [buildUserAnalytics, calculateDepositMetrics] at hz ⊢
    split_ifs at hz ⊢ with hlen
    · simp [jsOrQ]
    · exact absurd hz hlen
    · omega

theorem C8_derived_metrics_witness :
    (buildUserAnalytics 7 none "DAILY" 0 86399999 [] [] []
        ⟨false, none, 0⟩).net_result =
      (buildUserAnalytics 7 none "DAILY" 0 86399999 [] [] []
        ⟨false, none, 0⟩).total_wins -
      (buildUserAnalytics 7 none "DAILY" 0 86399999 [] [] []
        ⟨false, none, 0⟩).total_losses ∧
    ((buildUserAnalytics 7 none "DAILY" 0 86399999 [] [] []
        ⟨false, none, 0⟩).deposit_count ≠ 0 →
      |(buildUserAnalytics 7 none "DAILY" 0 86399999 [] [] []
          ⟨false, none, 0⟩).avg_deposit_amount *
        ((buildUserAnalytics 7 none "DAILY" 0 86399999 [] [] []
          ⟨false, none, 0⟩).deposit_count : ℚ) -
        (buildUserAnalytics 7 none "DAILY" 0 86399999 [] [] []
          ⟨false, none, 0⟩).total_deposits| ≤ 1 / 100) ∧
    ((buildUserAnalytics 7 none "DAILY" 0 86399999 [] [] []
        ⟨false, none, 0⟩).deposit_count = 0 →
      (buildUserAnalytics 7 none "DAILY" 0 86399999 [] [] []
        ⟨false, none, 0⟩).avg_deposit_amount = 0) :=
  C8_derived_metrics 7 none "DAILY" 0 86399999 [] [] [] ⟨false, none, 0⟩

/-! ## Extractor batch boundary (dataExtractor.js 67-141, 219-289) -/

/-- The rows the source database returns for the query built by
`buildExtractQuery`: `LIMIT` is only added when `batchSize` is truthy and
`OFFSET` only when `offset` is truthy (lines 278-286). -/
def runExtractQuery (filtered : List JsRecord) (batchSize offset : Nat) :
    List JsRecord :=
  let afterOffset := if offset ≠ 0 then filtered.drop offset else filtered
  if batchSize ≠ 0 then afterOffset.take batchSize else afterOffset

structure ExtractResult where
  success : Bool
  data : List JsRecord
  recordCount : Nat
  hasMore : Bool

/-- Embedding of the success path of `extractTable` (dataExtractor.js
102-123): `hasMore := result.rows.length === batchSize`. -/
def extractTable (filtered : List JsRecord) (batchSize offset : Nat) :
    ExtractResult :=
  let rows := runExtractQuery filtered batchSize offset
  { success := true, data := rows, recordCount := rows.length
    hasMore := rows.length == batchSize }

/-- Claim C5: a batch read with batch size N reports `hasMore = true`
exactly when the number of returned rows equals N, and `hasMore = false`
whenever fewer than N rows are returned (and, N being positive, at most N
rows come back). -/
theorem C5_hasMore_batch_boundary (filtered : List JsRecord)
    (batchSize offset : Nat) :
    ((extractTable filtered batchSize offset).hasMore = true ↔
      (extractTable filtered batchSize offset).data.length = batchSize) ∧
    ((extractTable filtered batchSize offset).data.length < batchSize →
      (extractTable filtered batchSize offset).hasMore = false) ∧
    (0 < batchSize →
      (extractTable filtered batchSize offset).data.length ≤ batchSize) := by
  refine ⟨beq_iff_eq, ?_, ?_⟩
  · intro hlt
    rcases h : (extractTable filtered batchSize offset).hasMore with _ | _
    · rfl
    · exact absurd (beq_iff_eq.mp h) (Nat.ne_of_lt hlt)
  · intro hpos
    simp only [extractTable, runExtractQuery]
    rw [if_pos (show batchSize ≠ 0 by omega)]
    exact List.length_take_le _ _

theorem C5_hasMore_batch_boundary_witness :
    ((extractTable [[("id", JSVal.num 1)]] 1 0).hasMore = true ↔
      (extractTable [[("id", JSVal.num 1)]] 1 0).data.length = 1) ∧
    ((extractTable [[("id", JSVal.num 1)]] 1 0).data.length < 1 →
      (extractTable [[("id", JSVal.num 1)]] 1 0).hasMore = false) ∧
    (0 < 1 → (extractTable [[("id", JSVal.num 1)]] 1 0).data.length ≤ 1) :=
  C5_hasMore_batch_boundary [[("id", JSVal.num 1)]] 1 0

/-! ## syncExternalData status handling (dataService.js 39-132) -/

/-- `_.chunk` body for a positive chunk size `n + 1`. -/
def chunkGo (n : Nat) : List JsRecord → List (List JsRecord)
  | [] => []
  | x :: xs => ((x :: xs).take (n + 1)) :: chunkGo n ((x :: xs).drop (n + 1))
termination_by l => l.length
decreasing_by simp only [List.length_drop, List.length_cons]; omega

/-- lodash `_.chunk(list, size)`: empty result for size 0. -/
def chunkList (l : List JsRecord) (size : Nat) : List (List JsRecord) :=
  match size with
  | 0 => []
  | n + 1 => chunkGo n l

/-- `options.batchSize || syncSettings.batch_size || 1000` (line 41);
absent/zero values are falsy. -/
def resolveBatchSize (optBatch cfgBatch : Nat) : Nat :=
  if optBatch ≠ 0 then optBatch else if cfgBatch ≠ 0 then cfgBatch else 1000

/-- `_.chunk(externalData, Math.min(batchSize, 100))` of line 79. -/
def syncChunks (optBatch cfgBatch : Nat) (externalData : List JsRecord) :
    List (List JsRecord) :=
  chunkList externalData (min (resolveBatchSize optBatch cfgBatch) 100)

/-- The chunk loop of lines 81-89: each chunk adds its length to
recordsSuccess, or to recordsFailed when processDataChunk throws. -/
def syncCounts (chunkFails : List JsRecord → Bool)
    (chunks : List (List JsRecord)) : Nat × Nat :=
  chunks.foldl
    (fun acc ch =>
      if chunkFails ch then (acc.1, acc.2 + ch.length)
      else (acc.1 + ch.length, acc.2)) (0, 0)

/-- The final state of the data_sync_logs row written by `updateSyncLog`. -/
structure SyncLogFinal where
  records_processed : Nat
  records_success : Nat
  records_failed : Nat
  status : String
  error_message : Option String

/-- `syncExternalData` either returns normally (`.ok`) or rethrows the
escaped exception (`.failed`); both carry the final log row. -/
inductive SyncOutcome where
  | ok (log : SyncLogFinal)
  | failed (err : String) (log : SyncLogFinal)

/-- Embedding of `syncExternalData` (dataService.js 39-132). `fetch` is the
outcome of `getExternalData`; `chunkFails` says whether `processDataChunk`
throws for a given chunk (that error is caught inside the loop, lines
85-88). The status expression is the literal
`recordsFailed === 0 ? 'COMPLETED' : 'COMPLETED'` of line 99. -/
def syncExternalData (fetch : Except String (List JsRecord))
    (chunkFails : List JsRecord → Bool) (optBatch cfgBatch : Nat) :
    SyncOutcome :=
  match fetch with
  | .error e =>
    .failed e { records_processed := 0, records_success := 0
                records_failed := 0, status := "FAILED"
                error_message := some e }
  | .ok externalData =>
    let counts := syncCounts chunkFails (syncChunks optBatch cfgBatch externalData)
    .ok { records_processed := externalData.length
          records_success := counts.1
          records_failed := counts.2
          status := if counts.2 = 0 then "COMPLETED" else "COMPLETED"
          error_message :=
            if counts.2 > 0 then some (toString counts.2 ++ " registros falharam")
            else none }

theorem chunkGo_length_sum (n : Nat) :
    ∀ (len : Nat) (l : List JsRecord), l.length = len →
      ((chunkGo n l).map List.length).sum = l.length := by
  intro len
  induction len using Nat.strong_induction_on with
  | _ len ih =>
    intro l hlen
    cases l with
    | nil => simp [chunkGo]
    | cons x xs =>
      rw [chunkGo]
      simp only [List.map_cons, List.sum_cons]
      have hdl : ((x :: xs).drop (n + 1)).length < len := by
        simp only [List.length_drop, List.length_cons] at *
        omega
      rw [ih _ hdl _ rfl]
      simp only [List.length_take, List.length_drop, List.length_cons]
      omega

theorem chunkList_length_sum (l : List JsRecord) (size : Nat)
    (hs : size ≠ 0) : ((chunkList l size).map List.length).sum = l.length := by
  cases size with
  | zero => exact absurd rfl hs
  | succ n => exact chunkGo_length_sum n _ l rfl

theorem counts_fold_sum (chunkFails : List JsRecord → Bool)
    (chunks : List (List JsRecord)) :
    ∀ a b : Nat,
    (chunks.foldl
      (fun acc ch =>
        if chunkFails ch then (acc.1, acc.2 + ch.length)
        else (acc.1 + ch.length, acc.2)) (a, b)).1 +
    (chunks.foldl
      (fun acc ch =>
        if chunkFails ch then (acc.1, acc.2 + ch.length)
        else (acc.1 + ch.length, acc.2)) (a, b)).2 =
      a + b + (chunks.map List.length).sum := by
  induction chunks with
  | nil => simp
  | cons c cs ih =>
    intro a b
    simp only [List.foldl_cons, List.map_cons, List.sum_cons]
    rcases h : chunkFails c with _ | _
    · rw [if_neg (by simp [h])]
      rw [ih]
      omega
    · rw [if_pos (by simp [h])]
      rw [ih]
      omega

theorem syncCounts_sum (chunkFails : List JsRecord → Bool)
    (chunks : List (List JsRecord)) :
    (syncCounts chunkFails chunks).1 + (syncCounts chunkFails chunks).2 =
      (chunks.map List.length).sum := by
  unfold syncCounts
  rw [counts_fold_sum]
  omega

theorem resolveBatchSize_pos (optBatch cfgBatch : Nat) :
    0 < resolveBatchSize optBatch cfgBatch := by
  unfold resolveBatchSize
  split_ifs <;> omega

/-- Claim C10: when syncExternalData returns normally the final log status
is 'COMPLETED' even with failed chunks (the count surfacing only in
error_message), records_success + records_failed = records_processed, and
the 'FAILED' status appears exactly on the exception path. -/
theorem C10_completed_even_with_failures
    (fetch : Except String (List JsRecord))
    (chunkFails : List JsRecord → Bool) (optBatch cfgBatch : Nat) :
    (∀ log, syncExternalData fetch chunkFails optBatch cfgBatch = .ok log →
      log.status = "COMPLETED" ∧
      log.records_success + log.records_failed = log.records_processed ∧
      (0 < log.records_failed → log.error_message.isSome = true) ∧
      (log.records_failed = 0 → log.error_message = none)) ∧
    (∀ e log,
      syncExternalData fetch chunkFails optBatch cfgBatch = .failed e log →
      log.status = "FAILED") := by
  constructor
  · intro log hlog
    cases fetch with
    | error e => exact absurd hlog (by simp [syncExternalData])
    | ok externalData =>
      simp only [syncExternalData, SyncOutcome.ok.injEq] at hlog
      subst hlog
      have hsz : min (resolveBatchSize optBatch cfgBatch) 100 ≠ 0 := by
        have := resolveBatchSize_pos optBatch cfgBatch
        omega
      refine ⟨?_, ?_, ?_, ?_⟩
      · show (if (syncCounts chunkFails
            (syncChunks optBatch cfgBatch externalData)).2 = 0 then
            "COMPLETED" else "COMPLETED") = "COMPLETED"
        split_ifs <;> rfl
      · show (syncCounts chunkFails (syncChunks optBatch cfgBatch externalData)).1 +
            (syncCounts chunkFails (syncChunks optBatch cfgBatch externalData)).2 =
            externalData.length
        rw [syncCounts_sum]
        exact chunkList_length_sum _ _ hsz
      · intro h
        have h' : (syncCounts chunkFails
            (syncChunks optBatch cfgBatch externalData)).2 > 0 := h
        show (if (syncCounts chunkFails
            (syncChunks optBatch cfgBatch externalData)).2 > 0 then
            some (toString (syncCounts chunkFails
              (syncChunks optBatch cfgBatch externalData)).2 ++
              " registros falharam")
            else none).isSome = true
        rw [if_pos h']
        rfl
      · intro h
        have h' : (syncCounts chunkFails
            (syncChunks optBatch cfgBatch externalData)).2 = 0 := h
        show (if (syncCounts chunkFails
            (syncChunks optBatch cfgBatch externalData)).2 > 0 then
            some (toString (syncCounts chunkFails
              (syncChunks optBatch cfgBatch externalData)).2 ++
              " registros falharam")
            else none) = none
        rw [if_neg (by omega)]
  · intro e log hlog
    cases fetch with
    | error e0 =>
      simp only [syncExternalData, SyncOutcome.failed.injEq] at hlog
      rw [← hlog.2]
    | ok externalData => exact absurd hlog (by simp [syncExternalData])

theorem C10_completed_even_with_failures_witness :
    (∀ log, syncExternalData (.ok [[("id", JSVal.num 1)]])
        (fun _ => true) 0 0 = .ok log →
      log.status = "COMPLETED" ∧
      log.records_success + log.records_failed = log.records_processed ∧
      (0 < log.records_failed → log.error_message.isSome = true) ∧
      (log.records_failed = 0 → log.error_message = none)) ∧
    (∀ e log, syncExternalData (.ok [[("id", JSVal.num 1)]])
        (fun _ => true) 0 0 = .failed e log →
      log.status = "FAILED") :=
  C10_completed_even_with_failures (.ok [[("id", JSVal.num 1)]])
    (fun _ => true) 0 0

/-- Claim C7 (corrected): getPeriodRange truncates the reference date to the
calendar start of the period and extends to its end for day, week, calendar
month and calendar year — but the week is moment's default Sunday-start
locale week, not the ISO week; the DAILY and MONTHLY figures for
2025-03-10T14:22Z hold, and periodEnd > periodStart always holds. -/
theorem C7_period_resolution (t s e : Int) :
    (∀ pt, getPeriodRange t pt = some (s, e) → s ≤ t ∧ t ≤ e ∧ s < e) ∧
    (getPeriodRange t "DAILY" = some (s, e) →
      s % dayMs = 0 ∧ e = s + dayMs - 1) ∧
    (getPeriodRange t "WEEKLY" = some (s, e) →
      s % dayMs = 0 ∧ dayOfWeek s = 0 ∧ e = s + 7 * dayMs - 1) ∧
    (getPeriodRange t "MONTHLY" = some (s, e) →
      s = daysFromCivil (yearOf t) (monthOf t) 1 * dayMs ∧
      e + 1 = s + daysInMonth (monthOf t) (isLeap (yearOf t)) * dayMs) ∧
    (getPeriodRange t "YEARLY" = some (s, e) →
      s = daysFromCivil (yearOf t) 1 1 * dayMs ∧
      e + 1 = daysFromCivil (yearOf t + 1) 1 1 * dayMs) ∧
    getPeriodRange 1741616520000 "DAILY" =
      some (1741564800000, 1741651199999) ∧
    getPeriodRange 1741616520000 "MONTHLY" =
      some (1740787200000, 1743465599999) := by
  obtain ⟨h1, h2, h3, h4, h5⟩ := getPeriodRange_spec t s e
  exact ⟨h1, h2, h3, h4, h5, by decide, by decide⟩

theorem C7_period_resolution_witness :
    (1741564800000 : Int) ≤ 1741616520000 ∧
    (1741616520000 : Int) ≤ 1741651199999 ∧
    (1741564800000 : Int) < 1741651199999 :=
  (C7_period_resolution 1741616520000 1741564800000 1741651199999).1 "DAILY"
    (by decide)

/-- Claim C7, original wording refuted: for the WEEKLY period the code does
not truncate to the ISO week start — at 2025-03-10T14:22Z (a Monday) the
ISO week starts that same day, while the code returns Sunday 2025-03-09. -/
theorem C7_counterexample :
    ∃ t s e, getPeriodRange t "WEEKLY" = some (s, e) ∧ s ≠ isoWeekStart t :=
  ⟨1741616520000, 1741478400000, 1742083199999, by decide, by decide⟩

end FatureData
